import Mathlib

/-!
Verification of the Distributed TikTok Scraper coordinator.

Shallow embedding of `src/backend/coordinator.py` (class `CoordinatorManager`
and the API routes), of the URL validator and count parser shared by
`src/tiktok_scraper.py` and `src/backend/async_scraper.py`, and of the data
model in `src/backend/models.py`.

Modelling conventions:
* `datetime.utcnow()` is an explicit `now : Nat` parameter (seconds);
  `current_time - last_heartbeat > timedelta(seconds=60)` becomes
  `60 < now - last_heartbeat` on `Nat` (both sides agree when the clock is
  monotone, and a negative Python difference compares false just as the
  truncated `Nat` difference does).
* Python dicts (`active_workers`, `job_assignments`) are association lists
  with dict update/delete/lookup semantics (`aset`, `aerase`, `alookup`).
* The SQLAlchemy tables are insertion-ordered lists of records;
  `db.get(Model, key)` is `find?` on the primary key, a mutated-and-committed
  row is a keyed in-place map (`updateJob`, `updateRow`), `db.add` appends.
* WebSocket broadcasts append an `Event` to an event log.
* `uuid.uuid4()` for a fresh worker id is an explicit parameter.
-/

namespace TikTokScraper

/-- Job status enum from `models.py` (`JobStatus`). -/
inductive JobStatus where
  | pending
  | assigned
  | running
  | completed
  | failed
  | cancelled
  deriving DecidableEq, Repr

/-- Worker status enum from `models.py` (`WorkerStatus`). -/
inductive WorkerStatus where
  | connecting
  | idle
  | busy
  | offline
  | error
  deriving DecidableEq, Repr

/-- A row of the `scrape_jobs` table (`models.ScrapeJob`). -/
structure Job where
  id : Nat
  url : String
  profile_username : Option String
  status : JobStatus
  assigned_worker_id : Option String
  created_at : Nat
  started_at : Option Nat
  completed_at : Option Nat
  total_videos : Int
  processed_videos : Int
  failed_videos : Int
  error_message : Option String
  result_file_path : Option String
  deriving DecidableEq, Repr

/-- An entry of the in-memory `active_workers` dict in `coordinator.py`. -/
structure WorkerData where
  id : String
  hostname : String
  ip_address : String
  port : Nat
  status : WorkerStatus
  last_heartbeat : Nat
  current_job_id : Option Nat
  total_jobs_completed : Nat
  total_videos_scraped : Int
  deriving DecidableEq, Repr

/-- A row of the `workers` table (`models.Worker`), restricted to the fields
the coordinator logic reads or writes. -/
structure WorkerRow where
  id : String
  hostname : String
  status : WorkerStatus
  last_heartbeat : Nat
  current_job_id : Option Nat
  deriving DecidableEq, Repr

/-- The `JobProgress` request model from `models.py`. -/
structure JobProgress where
  job_id : Nat
  worker_id : String
  total_videos : Int
  processed_videos : Int
  failed_videos : Int
  current_video_url : Option String
  status : JobStatus
  message : Option String
  deriving DecidableEq, Repr

/-- The `WorkerHeartbeat` request model from `models.py`. -/
structure WorkerHeartbeat where
  worker_id : String
  status : WorkerStatus
  current_job_id : Option Nat
  deriving DecidableEq, Repr

/-- A WebSocket broadcast (`broadcast_to_clients` payloads, keyed by
`WSMessageType`, carrying the identifying fields of the `data` dict). -/
inductive Event where
  | worker_connected (worker_id : String)
  | worker_disconnected (worker_id : String) (reason : String)
  | worker_status_update (worker_id : String) (status : WorkerStatus)
  | job_created (job_id : Nat)
  | job_assigned (job_id : Nat) (worker_id : String)
  | job_progress (p : JobProgress)
  | job_failed (job_id : Nat) (error_message : String)
  deriving DecidableEq, Repr

/-- The shared coordinator state: the two database tables, the two
module-level dicts `active_workers` and `job_assignments`, and the
broadcast log. -/
structure CoordState where
  jobs : List Job
  workersDb : List WorkerRow
  active_workers : List (String × WorkerData)
  job_assignments : List (Nat × String)
  events : List Event
  deriving DecidableEq, Repr

/-- Dict lookup (`d.get(k)` / `k in d`): first entry with the key. -/
def alookup {κ α : Type} [DecidableEq κ] (k : κ) : List (κ × α) → Option α
  | [] => none
  | (k', v) :: rest => if k' = k then some v else alookup k rest

/-- Dict write `d[k] = v`: overwrite the existing entry or append. -/
def aset {κ α : Type} [DecidableEq κ] (k : κ) (v : α) : List (κ × α) → List (κ × α)
  | [] => [(k, v)]
  | (k', v') :: rest => if k' = k then (k, v) :: rest else (k', v') :: aset k v rest

/-- Dict delete `d.pop(k, None)`: drop every entry with the key. -/
def aerase {κ α : Type} [DecidableEq κ] (k : κ) : List (κ × α) → List (κ × α)
  | [] => []
  | (k', v') :: rest => if k' = k then aerase k rest else (k', v') :: aerase k rest

/-- In-place field mutation of the dict value at a key
(`d[k]["field"] = ...`); a no-op when the key is absent. -/
def aupdate {κ α : Type} [DecidableEq κ] (k : κ) (f : α → α) (l : List (κ × α)) :
    List (κ × α) :=
  l.map fun p => if p.1 = k then (p.1, f p.2) else p

/-- `db.get(ScrapeJob, job_id)`. -/
def findJob (jobs : List Job) (jid : Nat) : Option Job :=
  jobs.find? fun j => j.id == jid

/-- Mutate-and-commit of the job row with the given primary key. -/
def updateJob (jobs : List Job) (jid : Nat) (f : Job → Job) : List Job :=
  jobs.map fun j => if j.id = jid then f j else j

/-- `db.get(Worker, worker_id)`. -/
def findRow (rows : List WorkerRow) (wid : String) : Option WorkerRow :=
  rows.find? fun r => r.id == wid

/-- Mutate-and-commit of the worker row with the given primary key. -/
def updateRow (rows : List WorkerRow) (wid : String) (f : WorkerRow → WorkerRow) :
    List WorkerRow :=
  rows.map fun r => if r.id = wid then f r else r

/-- `CoordinatorManager.handle_worker_job_failure`: mark the job FAILED with
the error message and a completion time, drop its `job_assignments` entry,
and broadcast a `job_failed` event.  The dict pop and the broadcast happen
even when the job row is absent, exactly as in the source.  `failJobUpdate`
is the mutation applied to the job row, named so proofs can refer to it. -/
def failJobUpdate (error_message : String) (now : Nat) (j : Job) : Job :=
  { j with
    status := JobStatus.failed
    error_message := some error_message
    completed_at := some now }

def handle_worker_job_failure (job_id : Nat) (error_message : String) (now : Nat)
    (s : CoordState) : CoordState :=
  { s with
    jobs := updateJob s.jobs job_id (failJobUpdate error_message now)
    job_assignments := aerase job_id s.job_assignments
    events := s.events ++ [Event.job_failed job_id error_message] }

/-- `CoordinatorManager.unregister_worker`: returns unchanged when the worker
is not in `active_workers`; otherwise fails its current job (if any), pops the
worker from `active_workers`, marks its database row OFFLINE, and broadcasts
`worker_disconnected`.  `offlineRowUpdate` is the mutation applied to the
worker's store row, named so proofs can refer to it. -/
def offlineRowUpdate (now : Nat) (r : WorkerRow) : WorkerRow :=
  { r with status := WorkerStatus.offline, last_heartbeat := now }

def unregister_worker (worker_id : String) (reason : String) (now : Nat)
    (s : CoordState) : CoordState :=
  match alookup worker_id s.active_workers with
  | none => s
  | some wd =>
    let s1 :=
      match wd.current_job_id with
      | some jid =>
          handle_worker_job_failure jid ("Worker disconnected: " ++ reason) now s
      | none => s
    { s1 with
      active_workers := aerase worker_id s1.active_workers
      workersDb := updateRow s1.workersDb worker_id (offlineRowUpdate now)
      events := s1.events ++ [Event.worker_disconnected worker_id reason] }

/-- `CoordinatorManager.assign_job_to_worker`: fails fast when the worker is
absent from `active_workers` (no IDLE check is made), then when the job is
absent or not PENDING; on success sets the job ASSIGNED, marks the worker
BUSY in dict and database, records the assignment, and broadcasts
`job_assigned`. -/
def assign_job_to_worker (job_id : Nat) (worker_id : String) (now : Nat)
    (s : CoordState) : Bool × CoordState :=
  match alookup worker_id s.active_workers with
  | none => (false, s)
  | some _ =>
    match findJob s.jobs job_id with
    | none => (false, s)
    | some job =>
      if job.status = JobStatus.pending then
        (true,
          { s with
            jobs := updateJob s.jobs job_id fun j =>
              { j with
                status := JobStatus.assigned
                assigned_worker_id := some worker_id
                started_at := some now }
            active_workers := aupdate worker_id (fun w =>
              { w with status := WorkerStatus.busy, current_job_id := some job_id })
              s.active_workers
            workersDb := updateRow s.workersDb worker_id fun r =>
              { r with status := WorkerStatus.busy, current_job_id := some job_id }
            job_assignments := aset job_id worker_id s.job_assignments
            events := s.events ++ [Event.job_assigned job_id worker_id] })
      else (false, s)

/-- `CoordinatorManager.handle_job_progress`: when the job row exists, copy
the reported counters and status onto it unconditionally; on COMPLETED also
stamp `completed_at`, free the reporting worker (IDLE, no current job, bump
its cumulative counters) and drop the assignment entry; on FAILED record the
message, stamp `completed_at`, free the worker and drop the assignment.  The
progress broadcast is sent in every case.  `progressJobUpdate` is the
mutation applied to the job row, named so the proofs can refer to it. -/
def progressJobUpdate (p : JobProgress) (now : Nat) (j : Job) : Job :=
  let j1 :=
    { j with
      total_videos := p.total_videos
      processed_videos := p.processed_videos
      failed_videos := p.failed_videos
      status := p.status }
  if p.status = JobStatus.completed then
    { j1 with completed_at := some now }
  else if p.status = JobStatus.failed then
    { j1 with error_message := p.message, completed_at := some now }
  else j1

def handle_job_progress (p : JobProgress) (now : Nat) (s : CoordState) : CoordState :=
  let s1 :=
    match findJob s.jobs p.job_id with
    | none => s
    | some _ =>
      let jobs' := updateJob s.jobs p.job_id (progressJobUpdate p now)
      if p.status = JobStatus.completed then
        { s with
          jobs := jobs'
          active_workers := aupdate p.worker_id (fun w =>
            { w with
              status := WorkerStatus.idle
              current_job_id := none
              total_jobs_completed := w.total_jobs_completed + 1
              total_videos_scraped := w.total_videos_scraped + p.processed_videos })
            s.active_workers
          job_assignments := aerase p.job_id s.job_assignments }
      else if p.status = JobStatus.failed then
        { s with
          jobs := jobs'
          active_workers := aupdate p.worker_id (fun w =>
            { w with status := WorkerStatus.idle, current_job_id := none })
            s.active_workers
          job_assignments := aerase p.job_id s.job_assignments }
      else { s with jobs := jobs' }
  { s1 with events := s1.events ++ [Event.job_progress p] }

/-- `CoordinatorManager.update_worker_heartbeat`: no-op for an unknown worker;
otherwise refresh the dict entry and the database row and broadcast a status
update. -/
def update_worker_heartbeat (hb : WorkerHeartbeat) (now : Nat) (s : CoordState) :
    CoordState :=
  match alookup hb.worker_id s.active_workers with
  | none => s
  | some _ =>
    { s with
      active_workers := aupdate hb.worker_id (fun w =>
        { w with
          status := hb.status
          last_heartbeat := now
          current_job_id := hb.current_job_id }) s.active_workers
      workersDb := updateRow s.workersDb hb.worker_id fun r =>
        { r with
          status := hb.status
          last_heartbeat := now
          current_job_id := hb.current_job_id }
      events := s.events ++ [Event.worker_status_update hb.worker_id hb.status] }

/-- `CoordinatorManager.register_worker` with the fresh UUID passed in:
insert an IDLE dict entry, add a database row, broadcast `worker_connected`. -/
def register_worker (worker_id hostname ip_address : String) (port : Nat) (now : Nat)
    (s : CoordState) : CoordState :=
  { s with
    active_workers := aset worker_id
      { id := worker_id
        hostname := hostname
        ip_address := ip_address
        port := port
        status := WorkerStatus.idle
        last_heartbeat := now
        current_job_id := none
        total_jobs_completed := 0
        total_videos_scraped := 0 } s.active_workers
    workersDb := s.workersDb ++
      [{ id := worker_id
         hostname := hostname
         status := WorkerStatus.idle
         last_heartbeat := now
         current_job_id := none }]
    events := s.events ++ [Event.worker_connected worker_id] }

/-- The stale-worker scan of `worker_monitor_loop`: workers whose last
heartbeat is more than 60 seconds old. -/
def staleWorkerIds (now : Nat) (aw : List (String × WorkerData)) : List String :=
  (aw.filter fun p => 60 < now - p.2.last_heartbeat).map Prod.fst

/-- The trailing loop of `worker_monitor_loop`: refresh `last_heartbeat` of
every database row belonging to a still-active worker. -/
def refreshHeartbeats (now : Nat) (s : CoordState) : CoordState :=
  { s with
    workersDb := s.active_workers.foldl
      (fun rows p => updateRow rows p.1 fun r => { r with last_heartbeat := now })
      s.workersDb }

/-- One iteration of `CoordinatorManager.worker_monitor_loop`: collect the
stale workers, unregister each with reason "Heartbeat timeout", then refresh
the heartbeats of the survivors. -/
def worker_monitor_tick (now : Nat) (s : CoordState) : CoordState :=
  refreshHeartbeats now
    ((staleWorkerIds now s.active_workers).foldl
      (fun acc wid => unregister_worker wid "Heartbeat timeout" now acc) s)

/-- The PENDING-job scan of `job_assignment_loop` (the `filter` query on the
insertion-ordered table). -/
def pendingJobIds (jobs : List Job) : List Nat :=
  (jobs.filter fun j => j.status == JobStatus.pending).map Job.id

/-- The idle-worker scan of `job_assignment_loop` (dict iteration order). -/
def idleWorkerIds (aw : List (String × WorkerData)) : List String :=
  (aw.filter fun p => p.2.status == WorkerStatus.idle).map Prod.fst

/-- The greedy pairing made by one scheduler tick: the i-th pending job with
the i-th idle worker, stopping when either list runs out (`idle_workers.pop(0)`
inside `for job in pending_jobs`). -/
def tickPairs (s : CoordState) : List (Nat × String) :=
  List.zip (pendingJobIds s.jobs) (idleWorkerIds s.active_workers)

/-- One iteration of `CoordinatorManager.job_assignment_loop`: invoke the
assignment operation once per greedy pair, in order. -/
def job_assignment_tick (now : Nat) (s : CoordState) : CoordState :=
  (tickPairs s).foldl (fun acc p => (assign_job_to_worker p.1 p.2 now acc).2) s

/-- Python's `str.strip()`: drop whitespace from both ends. -/
def pyStrip (cs : List Char) : List Char :=
  ((cs.dropWhile Char.isWhitespace).reverse.dropWhile Char.isWhitespace).reverse

/-- The character class `[\w.-]` of the TikTok username patterns (ASCII
reading of Python's `\w`). -/
def isUserChar (c : Char) : Bool :=
  c.isAlphanum || c == '_' || c == '.' || c == '-'

/-- The character class `\w` (ASCII reading). -/
def isWordChar (c : Char) : Bool :=
  c.isAlphanum || c == '_'

/-- Consume an exact literal from the front of the input (`re.match` of a
literal regex fragment), returning the remainder. -/
def dropLit : List Char → List Char → Option (List Char)
  | [], cs => some cs
  | _ :: _, [] => none
  | l :: ls, c :: cs => if c = l then dropLit ls cs else none

/-- Worker loop of `pySplit`: scan left to right, splitting at each
separator occurrence.  The fuel argument only makes the recursion
structural; `length + 1` is always enough fuel. -/
def pySplitGo (sep : List Char) : Nat → List Char → List Char → List (List Char)
  | 0, acc, rest => [acc.reverse ++ rest]
  | _ + 1, acc, [] => [acc.reverse]
  | fuel + 1, acc, c :: rest =>
    match dropLit sep (c :: rest) with
    | some rest' => acc.reverse :: pySplitGo sep fuel [] rest'
    | none => pySplitGo sep fuel (c :: acc) rest

/-- Python's `str.split(sep)` for a nonempty separator: split at each
non-overlapping occurrence. -/
def pySplit (sep : String) (cs : List Char) : List (List Char) :=
  pySplitGo sep.toList (cs.length + 1) [] cs

/-- Consume a nonempty maximal run of class characters (`[...]+`).  In the
four TikTok patterns every `+` class excludes the character that follows it
in the pattern (always `/`), so the greedy maximal run is the only possible
regex match and no backtracking is needed. -/
def dropClassPlus (p : Char → Bool) : List Char → Option (List Char)
  | [] => none
  | c :: cs => if p c then some (cs.dropWhile p) else none

/-- The fragment `https?://(?:www\.)?tiktok\.com` expanded into its four
literal alternatives.  No alternative is a prefix of another and no two can
match the same input, so trying them in order is exactly the regex's
backtracking semantics. -/
def hostVariants : List (List Char) :=
  ["https://www.tiktok.com".toList, "https://tiktok.com".toList,
   "http://www.tiktok.com".toList, "http://tiktok.com".toList]

/-- The fragment `https?://vm\.tiktok\.com/` expanded into its two literal
alternatives. -/
def vmVariants : List (List Char) :=
  ["https://vm.tiktok.com/".toList, "http://vm.tiktok.com/".toList]

/-- Try each literal alternative in order. -/
def dropFirstLit (lits : List (List Char)) (cs : List Char) : Option (List Char) :=
  match lits with
  | [] => none
  | l :: rest =>
    match dropLit l cs with
    | some cs' => some cs'
    | none => dropFirstLit rest cs

/-- `re.match` of `https?://(?:www\.)?tiktok\.com/@[\w.-]+/video/\d+`. -/
def matchVideoUrl (cs : List Char) : Bool :=
  (do
    let r1 ← dropFirstLit hostVariants cs
    let r2 ← dropLit "/@".toList r1
    let r3 ← dropClassPlus isUserChar r2
    let r4 ← dropLit "/video/".toList r3
    let _ ← dropClassPlus Char.isDigit r4
    pure ()).isSome

/-- `re.match` of `https?://(?:www\.)?tiktok\.com/t/\w+`. -/
def matchShortUrl (cs : List Char) : Bool :=
  (do
    let r1 ← dropFirstLit hostVariants cs
    let r2 ← dropLit "/t/".toList r1
    let _ ← dropClassPlus isWordChar r2
    pure ()).isSome

/-- `re.match` of `https?://vm\.tiktok\.com/\w+`. -/
def matchVmUrl (cs : List Char) : Bool :=
  (do
    let r1 ← dropFirstLit vmVariants cs
    let _ ← dropClassPlus isWordChar r1
    pure ()).isSome

/-- `re.match` of `https?://(?:www\.)?tiktok\.com/@[\w.-]+`. -/
def matchProfileUrl (cs : List Char) : Bool :=
  (do
    let r1 ← dropFirstLit hostVariants cs
    let r2 ← dropLit "/@".toList r1
    let _ ← dropClassPlus isUserChar r2
    pure ()).isSome

/-- `validate_tiktok_url` from `tiktok_scraper.py` and (identically)
`AsyncTikTokScraper.validate_tiktok_url`: strip, then `re.match` any of the
four patterns. -/
def validate_tiktok_url (url : String) : Bool :=
  let cs := pyStrip url.toList
  matchVideoUrl cs || matchShortUrl cs || matchVmUrl cs || matchProfileUrl cs

/-- `get_profile_username` with the timestamp fallback parameterized by the
clock: `url.split('/@')[1].split('/')[0].split('?')[0]` when `'/@' in url`,
otherwise a time-based placeholder name. -/
def get_profile_username (url : String) (now : Nat) : String :=
  match pySplit "/@" url.toList with
  | _ :: second :: _ =>
    String.mk (((pySplit "?" ((pySplit "/" second).headD [])).headD []))
  | _ => "profile_" ++ toString now

/-- Autoincrement primary key of the `scrape_jobs` table (ids are `1..n` for
an append-only table starting empty). -/
def nextJobId (jobs : List Job) : Nat := jobs.length + 1

/-- The `POST /api/jobs` route (`create_job` in `coordinator.py`): validate
the URL first and raise HTTP 400 before touching any state; otherwise fill in
the username, insert a PENDING job row and broadcast `job_created`.  The
returned pair is (HTTP result, resulting state). -/
def create_job (url : String) (profile_username : Option String) (now : Nat)
    (s : CoordState) : Except String Job × CoordState :=
  if validate_tiktok_url url then
    let uname :=
      match profile_username with
      | some u => if u = "" then get_profile_username url now else u
      | none => get_profile_username url now
    let job : Job :=
      { id := nextJobId s.jobs
        url := url
        profile_username := some uname
        status := JobStatus.pending
        assigned_worker_id := none
        created_at := now
        started_at := none
        completed_at := none
        total_videos := 0
        processed_videos := 0
        failed_videos := 0
        error_message := none
        result_file_path := none }
    (Except.ok job,
      { s with
        jobs := s.jobs ++ [job]
        events := s.events ++ [Event.job_created job.id] })
  else (Except.error "Invalid TikTok URL", s)

/-- The cleaning step of `parse_count`: `count_str.strip().upper()` followed
by `re.sub(r'[^0-9KMB.]', '', ...)`. -/
def cleanCountChars (s : String) : List Char :=
  ((pyStrip s.toList).map Char.toUpper).filter fun c =>
    c.isDigit || c == 'K' || c == 'M' || c == 'B' || c == '.'

/-- Digit run to a natural number. -/
def digitsVal (cs : List Char) : Nat :=
  cs.foldl (fun n c => n * 10 + (c.toNat - 48)) 0

/-- Python's `float(...)` on the cleaned, suffix-stripped string, modelled
exactly: accepted iff every character is a digit or a dot, there is at most
one dot and at least one digit; the value is returned as the exact pair
(numerator, power-of-ten denominator).  `None` models `ValueError`.  IEEE
rounding is modelled as exact rational arithmetic; the two agree on every
input whose scaled value is away from an integer boundary by more than the
double-precision error, which covers all inputs discussed here. -/
def pyFloat (cs : List Char) : Option (Nat × Nat) :=
  if (cs.all fun c => c.isDigit || c == '.') &&
      ((cs.filter fun c => c == '.').length ≤ 1 : Bool) &&
      (cs.any fun c => c.isDigit) then
    let intPart := cs.takeWhile fun c => c != '.'
    let fracPart := (cs.dropWhile fun c => c != '.').drop 1
    some (digitsVal (intPart ++ fracPart), 10 ^ fracPart.length)
  else none

/-- `int(...)` truncation of a nonnegative exact value `n / d` scaled by
`mult` (all values reaching `int()` in `parse_count` are nonnegative because
the cleaning step removes every sign character). -/
def pyIntOfScaled (n mult d : Nat) : Int := Int.ofNat (n * mult / d)

/-- `AsyncTikTokScraper.parse_count`: the whole suffix dispatch sits inside
`try: ... except: return 0`, so every parse failure yields 0. -/
def async_parse_count (s : String) : Int :=
  if s = "" then 0
  else
    let clean := cleanCountChars s
    let res : Option Int :=
      if clean.contains 'K' then
        (pyFloat (clean.filter fun c => c != 'K')).map fun p => pyIntOfScaled p.1 1000 p.2
      else if clean.contains 'M' then
        (pyFloat (clean.filter fun c => c != 'M')).map fun p => pyIntOfScaled p.1 1000000 p.2
      else if clean.contains 'B' then
        (pyFloat (clean.filter fun c => c != 'B')).map fun p =>
          pyIntOfScaled p.1 1000000000 p.2
      else (pyFloat clean).map fun p => pyIntOfScaled p.1 1 p.2
    res.getD 0

/-- `parse_count` from `tiktok_scraper.py`: the `try: ... except: return 0`
wraps only the final no-suffix branch; a `float` failure inside the K/M/B
branches escapes as an uncaught `ValueError`, modelled as `Except.error`. -/
def tiktok_parse_count (s : String) : Except Unit Int :=
  if s = "" then Except.ok 0
  else
    let clean := cleanCountChars s
    if clean.contains 'K' then
      match pyFloat (clean.filter fun c => c != 'K') with
      | some p => Except.ok (pyIntOfScaled p.1 1000 p.2)
      | none => Except.error ()
    else if clean.contains 'M' then
      match pyFloat (clean.filter fun c => c != 'M') with
      | some p => Except.ok (pyIntOfScaled p.1 1000000 p.2)
      | none => Except.error ()
    else if clean.contains 'B' then
      match pyFloat (clean.filter fun c => c != 'B') with
      | some p => Except.ok (pyIntOfScaled p.1 1000000000 p.2)
      | none => Except.error ()
    else
      match pyFloat clean with
      | some p => Except.ok (pyIntOfScaled p.1 1 p.2)
      | none => Except.ok 0

/-- One call of the coordinator's API surface (the operations reachable from
the FastAPI routes and the two background loops). -/
inductive Op where
  | createJob (url : String) (uname : Option String) (now : Nat)
  | register (worker_id hostname ip_address : String) (port now : Nat)
  | heartbeat (hb : WorkerHeartbeat) (now : Nat)
  | assign (job_id : Nat) (worker_id : String) (now : Nat)
  | progress (p : JobProgress) (now : Nat)
  | unregister (worker_id reason : String) (now : Nat)
  | monitorTick (now : Nat)
  | schedulerTick (now : Nat)
  deriving Repr

/-- Apply one API call to the shared state. -/
def applyOp (s : CoordState) : Op → CoordState
  | Op.createJob url uname now => (create_job url uname now s).2
  | Op.register wid h ip port now => register_worker wid h ip port now s
  | Op.heartbeat hb now => update_worker_heartbeat hb now s
  | Op.assign jid wid now => (assign_job_to_worker jid wid now s).2
  | Op.progress p now => handle_job_progress p now s
  | Op.unregister wid r now => unregister_worker wid r now s
  | Op.monitorTick now => worker_monitor_tick now s
  | Op.schedulerTick now => job_assignment_tick now s

/-- Apply a sequence of API calls. -/
def runOps (ops : List Op) (s : CoordState) : CoordState :=
  ops.foldl applyOp s

/-- The state before any API call. -/
def emptyState : CoordState :=
  { jobs := [], workersDb := [], active_workers := [], job_assignments := [],
    events := [] }

section AListLemmas

variable {κ α : Type} [DecidableEq κ]

lemma alookup_aerase (k k' : κ) (l : List (κ × α)) :
    alookup k (aerase k' l) = if k = k' then none else alookup k l := by
  induction l with
  | nil => by_cases h : k = k' <;> simp [alookup, aerase, h]
  | cons p rest ih =>
    obtain ⟨k0, v⟩ := p
    by_cases h0 : k0 = k'
    · rw [show aerase k' ((k0, v) :: rest) = aerase k' rest by simp [aerase, h0], ih]
      by_cases h1 : k = k'
      · simp [h1]
      · have hk : ¬ k0 = k := fun hc => h1 (hc ▸ h0)
        simp [h1, alookup, hk]
    · rw [show aerase k' ((k0, v) :: rest) = (k0, v) :: aerase k' rest by
        simp [aerase, h0]]
      by_cases h2 : k0 = k
      · have h1 : ¬ k = k' := fun hc => h0 (h2.trans hc)
        simp [alookup, h2, h1]
      · simp [alookup, h2, ih]

lemma alookup_aupdate (k k' : κ) (f : α → α) (l : List (κ × α)) :
    alookup k (aupdate k' f l) =
      if k = k' then (alookup k l).map f else alookup k l := by
  induction l with
  | nil => by_cases h : k = k' <;> simp [alookup, aupdate, h]
  | cons p rest ih =>
    obtain ⟨k0, v⟩ := p
    by_cases h0 : k0 = k'
    · rw [show aupdate k' f ((k0, v) :: rest) = (k0, f v) :: aupdate k' f rest by
        simp [aupdate, h0]]
      by_cases h2 : k0 = k
      · have h1 : k = k' := h2 ▸ h0
        simp [alookup, h2, h1]
      · simp only [alookup, if_neg h2]
        rw [ih]
    · rw [show aupdate k' f ((k0, v) :: rest) = (k0, v) :: aupdate k' f rest by
        simp [aupdate, h0]]
      by_cases h2 : k0 = k
      · have h1 : ¬ k = k' := fun hc => h0 (h2.trans hc)
        simp [alookup, h2, h1]
      · simp only [alookup, if_neg h2]
        rw [ih]

lemma alookup_aset (k k' : κ) (v : α) (l : List (κ × α)) :
    alookup k (aset k' v l) = if k = k' then some v else alookup k l := by
  induction l with
  | nil =>
    by_cases h : k = k' <;> simp [aset, alookup, h]
    exact fun hc => h hc.symm
  | cons p rest ih =>
    obtain ⟨k0, v0⟩ := p
    by_cases h0 : k0 = k'
    · rw [show aset k' v ((k0, v0) :: rest) = (k', v) :: rest by simp [aset, h0]]
      by_cases h1 : k = k'
      · have h2 : k0 = k := h0.trans h1.symm
        simp [alookup, h1, h2]
      · have h2 : ¬ k0 = k := fun hc => h1 (hc.symm.trans h0)
        have h3 : ¬ k' = k := fun hc => h1 hc.symm
        simp [alookup, h1, h2, h3]
    · rw [show aset k' v ((k0, v0) :: rest) = (k0, v0) :: aset k' v rest by
        simp [aset, h0]]
      by_cases h2 : k0 = k
      · have h1 : ¬ k = k' := fun hc => h0 (h2.trans hc)
        simp [alookup, h2, h1]
      · simp only [alookup, if_neg h2]
        rw [ih]

end AListLemmas

lemma findJob_cons (j : Job) (rest : List Job) (jid : Nat) :
    findJob (j :: rest) jid = if j.id = jid then some j else findJob rest jid := by
  by_cases h : j.id = jid
  · simp [findJob, List.find?_cons_of_pos, h]
  · rw [if_neg h]
    simp only [findJob]
    exact List.find?_cons_of_neg _ (by simp [h])

lemma updateJob_cons (j : Job) (rest : List Job) (jid' : Nat) (f : Job → Job) :
    updateJob (j :: rest) jid' f =
      (if j.id = jid' then f j else j) :: updateJob rest jid' f := by
  simp [updateJob]

lemma findJob_updateJob (jobs : List Job) (jid' : Nat) (f : Job → Job)
    (hid : ∀ j, (f j).id = j.id) (jid : Nat) :
    findJob (updateJob jobs jid' f) jid =
      if jid = jid' then (findJob jobs jid).map f else findJob jobs jid := by
  induction jobs with
  | nil => by_cases h : jid = jid' <;> simp [findJob, updateJob, h]
  | cons j rest ih =>
    rw [updateJob_cons]
    simp only [findJob_cons]
    by_cases h0 : j.id = jid'
    · by_cases h1 : jid = jid'
      · have hj : j.id = jid := h0.trans h1.symm
        simp [h0, h1, hj, hid j]
      · have hj : ¬ j.id = jid := fun hc => h1 ((hc.symm.trans h0 : jid = jid'))
        have hj2 : ¬ jid' = jid := fun hc => h1 hc.symm
        simp [h0, h1, hj, hj2, hid j, ih]
    · by_cases h2 : j.id = jid
      · have h3 : ¬ jid = jid' := fun hc => h0 (h2.trans hc)
        simp [h0, h2, h3]
      · simp [h0, h2, ih]

lemma findRow_cons (r : WorkerRow) (rest : List WorkerRow) (wid : String) :
    findRow (r :: rest) wid = if r.id = wid then some r else findRow rest wid := by
  by_cases h : r.id = wid
  · simp [findRow, List.find?_cons_of_pos, h]
  · rw [if_neg h]
    simp only [findRow]
    exact List.find?_cons_of_neg _ (by simp [h])

lemma updateRow_cons (r : WorkerRow) (rest : List WorkerRow) (wid' : String)
    (f : WorkerRow → WorkerRow) :
    updateRow (r :: rest) wid' f =
      (if r.id = wid' then f r else r) :: updateRow rest wid' f := by
  simp [updateRow]

lemma findRow_updateRow (rows : List WorkerRow) (wid' : String)
    (f : WorkerRow → WorkerRow) (hid : ∀ r, (f r).id = r.id) (wid : String) :
    findRow (updateRow rows wid' f) wid =
      if wid = wid' then (findRow rows wid).map f else findRow rows wid := by
  induction rows with
  | nil => by_cases h : wid = wid' <;> simp [findRow, updateRow, h]
  | cons r rest ih =>
    rw [updateRow_cons]
    simp only [findRow_cons]
    by_cases h0 : r.id = wid'
    · by_cases h1 : wid = wid'
      · have hj : r.id = wid := h0.trans h1.symm
        simp [h0, h1, hj, hid r]
      · have hj : ¬ r.id = wid := fun hc => h1 ((hc.symm.trans h0 : wid = wid'))
        have hj2 : ¬ wid' = wid := fun hc => h1 hc.symm
        simp [h0, h1, hj, hj2, hid r, ih]
    · by_cases h2 : r.id = wid
      · have h3 : ¬ wid = wid' := fun hc => h0 (h2.trans hc)
        simp [h0, h2, h3]
      · simp [h0, h2, ih]

lemma findJob_append (jobs jobs' : List Job) (jid : Nat) (j : Job)
    (h : findJob jobs jid = some j) : findJob (jobs ++ jobs') jid = some j := by
  simp only [findJob] at *
  rw [List.find?_append, h]
  rfl

/-- A job fixture for concrete tests. -/
def mkJob (jid : Nat) (st : JobStatus) : Job :=
  { id := jid
    url := "https://www.tiktok.com/@user"
    profile_username := some "user"
    status := st
    assigned_worker_id := none
    created_at := 0
    started_at := none
    completed_at := none
    total_videos := 0
    processed_videos := 0
    failed_videos := 0
    error_message := none
    result_file_path := none }

/-- A worker fixture for concrete tests. -/
def mkWorker (wid : String) (st : WorkerStatus) (cj : Option Nat) : WorkerData :=
  { id := wid
    hostname := "host"
    ip_address := "ip"
    port := 1
    status := st
    last_heartbeat := 0
    current_job_id := cj
    total_jobs_completed := 0
    total_videos_scraped := 0 }

lemma assign_not_pending (s : CoordState) (jid : Nat) (wid : String) (now : Nat)
    (h : ∀ j, findJob s.jobs jid = some j → j.status ≠ JobStatus.pending) :
    assign_job_to_worker jid wid now s = (false, s) := by
  simp only [assign_job_to_worker]
  cases hw : alookup wid s.active_workers with
  | none => rfl
  | some wd =>
    cases hj : findJob s.jobs jid with
    | none => rfl
    | some job => simp [h job hj]

lemma assign_success_shape (s : CoordState) (jid : Nat) (wid : String) (now : Nat)
    (h : (assign_job_to_worker jid wid now s).1 = true) :
    ∃ job, findJob s.jobs jid = some job ∧ job.status = JobStatus.pending ∧
      findJob (assign_job_to_worker jid wid now s).2.jobs jid =
        some { job with
               status := JobStatus.assigned
               assigned_worker_id := some wid
               started_at := some now } := by
  revert h
  simp only [assign_job_to_worker]
  cases hw : alookup wid s.active_workers with
  | none => intro h; cases h
  | some wd =>
    cases hj : findJob s.jobs jid with
    | none => intro h; cases h
    | some job =>
      by_cases hp : job.status = JobStatus.pending
      · intro _
        refine ⟨job, rfl, hp, ?_⟩
        simp only [if_pos hp]
        rw [findJob_updateJob s.jobs jid
            (fun j => { j with
              status := JobStatus.assigned
              assigned_worker_id := some wid
              started_at := some now })
            (fun j => rfl) jid, if_pos rfl, hj]
        rfl
      · intro h
        simp [hp] at h

/-- C1: `assign_job_to_worker` succeeds and mutates state only when the target
job exists with status PENDING.  First conjunct: whenever the job is absent or
not PENDING the call returns `False` and the whole state (job rows, worker
records, assignment map, event log) is unchanged.  Second conjunct: after a
successful assignment of a job, any second assignment of the same job fails
and leaves the state unchanged, so of two sequential `assign` calls on the
same PENDING job exactly the first succeeds. -/
theorem assign_only_pending_first_wins (s : CoordState) (jid : Nat)
    (wid₁ wid₂ : String) (now₁ now₂ : Nat) :
    ((∀ j, findJob s.jobs jid = some j → j.status ≠ JobStatus.pending) →
      assign_job_to_worker jid wid₁ now₁ s = (false, s)) ∧
    ((assign_job_to_worker jid wid₁ now₁ s).1 = true →
      assign_job_to_worker jid wid₂ now₂ (assign_job_to_worker jid wid₁ now₁ s).2 =
        (false, (assign_job_to_worker jid wid₁ now₁ s).2)) := by
  constructor
  · exact assign_not_pending s jid wid₁ now₁
  · intro h
    obtain ⟨job, _, _, hj'⟩ := assign_success_shape s jid wid₁ now₁ h
    apply assign_not_pending
    intro j hfind
    rw [hj'] at hfind
    cases hfind
    simp

/-- The state for the C1 witness: job 1 is COMPLETED, job 2 is PENDING, and
worker "w" is registered. -/
def stateC1 : CoordState :=
  { jobs := [mkJob 1 JobStatus.completed, mkJob 2 JobStatus.pending]
    workersDb := []
    active_workers := [("w", mkWorker "w" WorkerStatus.idle none)]
    job_assignments := []
    events := [] }

/-- Witness for C1 at a concrete state: assigning the COMPLETED job 1 fails
without mutation, and after worker "w" wins PENDING job 2, a second assign of
job 2 fails without mutation. -/
theorem assign_only_pending_first_wins_witness :
    assign_job_to_worker 1 "w" 5 stateC1 = (false, stateC1) ∧
    assign_job_to_worker 2 "w" 6 (assign_job_to_worker 2 "w" 5 stateC1).2 =
      (false, (assign_job_to_worker 2 "w" 5 stateC1).2) := by
  constructor
  · exact (assign_only_pending_first_wins stateC1 1 "w" "w" 5 5).1 (by
      intro j hj
      rw [show findJob stateC1.jobs 1 = some (mkJob 1 JobStatus.completed) from rfl] at hj
      cases hj
      decide)
  · exact (assign_only_pending_first_wins stateC1 2 "w" "w" 5 6).2 (by decide)

/-- C3 counterexample state: job 1 is PENDING and worker "w" is present in
`active_workers` with status BUSY. -/
def stateBusy : CoordState :=
  { jobs := [mkJob 1 JobStatus.pending]
    workersDb := []
    active_workers := [("w", mkWorker "w" WorkerStatus.busy (some 2))]
    job_assignments := []
    events := [] }

/-- C3 counterexample: a worker whose registry status is BUSY is nevertheless
assigned a PENDING job — `assign_job_to_worker` never reads the worker's
status, contradicting the claim that a non-IDLE worker yields
WorkerUnavailable. -/
theorem busy_worker_gets_assigned :
    alookup "w" stateBusy.active_workers =
      some (mkWorker "w" WorkerStatus.busy (some 2)) ∧
    (mkWorker "w" WorkerStatus.busy (some 2)).status = WorkerStatus.busy ∧
    (assign_job_to_worker 1 "w" 5 stateBusy).1 = true ∧
    (findJob (assign_job_to_worker 1 "w" 5 stateBusy).2.jobs 1).map
      Job.assigned_worker_id = some (some "w") := by
  refine ⟨rfl, rfl, rfl, rfl⟩

/-- C3 amended: the only worker-side precondition `assign_job_to_worker`
checks is membership in `active_workers`.  An absent worker makes the call
fail with no state change; for a present worker of any status (BUSY
included), a PENDING job is assigned. -/
theorem assign_worker_check_is_membership (s : CoordState) (jid : Nat)
    (wid : String) (now : Nat) :
    (alookup wid s.active_workers = none →
      assign_job_to_worker jid wid now s = (false, s)) ∧
    (∀ wd job, alookup wid s.active_workers = some wd →
      findJob s.jobs jid = some job → job.status = JobStatus.pending →
      (assign_job_to_worker jid wid now s).1 = true) := by
  constructor
  · intro hw
    simp only [assign_job_to_worker]
    rw [hw]
  · intro wd job hw hj hp
    simp [assign_job_to_worker, hw, hj, hp]

/-- Witness for the amended C3: both conjuncts at concrete inputs — the
absent worker "nobody" fails with no mutation, and BUSY worker "w" is
assigned PENDING job 1. -/
theorem assign_worker_check_is_membership_witness :
    assign_job_to_worker 1 "nobody" 5 stateBusy = (false, stateBusy) ∧
    (assign_job_to_worker 1 "w" 5 stateBusy).1 = true := by
  constructor
  · exact (assign_worker_check_is_membership stateBusy 1 "nobody" 5).1 rfl
  · exact (assign_worker_check_is_membership stateBusy 1 "w" 5).2
      (mkWorker "w" WorkerStatus.busy (some 2)) (mkJob 1 JobStatus.pending)
      rfl rfl rfl

lemma unregister_absent_noop (t : CoordState) (wid reason : String) (now : Nat)
    (ht : alookup wid t.active_workers = none) :
    unregister_worker wid reason now t = t := by
  simp only [unregister_worker]
  rw [ht]

/-- C7: reaping/unregistering is idempotent.  First conjunct: unregistering a
worker that is absent from `active_workers` returns the state unchanged — no
dict, table or event-log mutation.  Second conjunct: applying the reap logic
twice equals applying it once. -/
theorem unregister_noop_and_idempotent (s : CoordState) (wid reason : String)
    (now : Nat) :
    (alookup wid s.active_workers = none →
      unregister_worker wid reason now s = s) ∧
    unregister_worker wid reason now (unregister_worker wid reason now s) =
      unregister_worker wid reason now s := by
  refine ⟨unregister_absent_noop s wid reason now, ?_⟩
  cases hw : alookup wid s.active_workers with
  | none =>
    rw [unregister_absent_noop s wid reason now hw,
        unregister_absent_noop s wid reason now hw]
  | some wd =>
    apply unregister_absent_noop
    simp only [unregister_worker]
    rw [hw]
    cases wd.current_job_id <;>
      simp [handle_worker_job_failure, alookup_aerase]

/-- The state for the C7 witness: worker "w" holds job 1, worker "gone" was
never registered. -/
def stateC7 : CoordState :=
  { jobs := [mkJob 1 JobStatus.assigned]
    workersDb := []
    active_workers := [("w", mkWorker "w" WorkerStatus.busy (some 1))]
    job_assignments := [(1, "w")]
    events := [] }

/-- Witness for C7 at a concrete state: unregistering the never-registered
worker "gone" is a strict no-op, and double-unregistering "w" equals
unregistering it once. -/
theorem unregister_noop_and_idempotent_witness :
    unregister_worker "gone" "Heartbeat timeout" 9 stateC7 = stateC7 ∧
    unregister_worker "w" "Heartbeat timeout" 9
        (unregister_worker "w" "Heartbeat timeout" 9 stateC7) =
      unregister_worker "w" "Heartbeat timeout" 9 stateC7 := by
  constructor
  · exact (unregister_noop_and_idempotent stateC7 "gone" "Heartbeat timeout" 9).1 rfl
  · exact (unregister_noop_and_idempotent stateC7 "w" "Heartbeat timeout" 9).2

/-- C5 counterexample fixtures: job 1 already COMPLETED, and a later RUNNING
progress report for it. -/
def stateDone : CoordState :=
  { jobs := [{ mkJob 1 JobStatus.completed with
               completed_at := some 4, processed_videos := 10 }]
    workersDb := []
    active_workers := []
    job_assignments := []
    events := [] }

/-- A RUNNING progress report arriving after job 1 completed. -/
def lateProgress : JobProgress :=
  { job_id := 1
    worker_id := "w"
    total_videos := 10
    processed_videos := 5
    failed_videos := 1
    current_video_url := none
    status := JobStatus.running
    message := none }

/-- C5 counterexample: a COMPLETED (terminal) job is mutated by a later
progress report — its status becomes RUNNING and its counters are
overwritten, contradicting the claim that terminal states are immutable. -/
theorem progress_mutates_terminal_job :
    (findJob stateDone.jobs 1).map Job.status = some JobStatus.completed ∧
    (findJob (handle_job_progress lateProgress 9 stateDone).jobs 1).map
        (fun j => (j.status, j.processed_videos, j.failed_videos)) =
      some (JobStatus.running, 5, 1) := by
  exact ⟨rfl, rfl⟩

lemma progressJobUpdate_id (p : JobProgress) (now : Nat) (j : Job) :
    (progressJobUpdate p now j).id = j.id := by
  unfold progressJobUpdate
  by_cases h1 : p.status = JobStatus.completed <;>
    by_cases h2 : p.status = JobStatus.failed <;> simp [h1, h2]

lemma progressJobUpdate_fields (p : JobProgress) (now : Nat) (j : Job) :
    (progressJobUpdate p now j).status = p.status ∧
    (progressJobUpdate p now j).total_videos = p.total_videos ∧
    (progressJobUpdate p now j).processed_videos = p.processed_videos ∧
    (progressJobUpdate p now j).failed_videos = p.failed_videos ∧
    (progressJobUpdate p now j).assigned_worker_id = j.assigned_worker_id := by
  unfold progressJobUpdate
  by_cases h1 : p.status = JobStatus.completed <;>
    by_cases h2 : p.status = JobStatus.failed <;> simp [h1, h2]

lemma handle_job_progress_jobs (p : JobProgress) (now : Nat) (s : CoordState)
    (j : Job) (hfind : findJob s.jobs p.job_id = some j) :
    (handle_job_progress p now s).jobs =
      updateJob s.jobs p.job_id (progressJobUpdate p now) := by
  simp only [handle_job_progress]
  rw [hfind]
  by_cases h1 : p.status = JobStatus.completed <;>
    by_cases h2 : p.status = JobStatus.failed <;> simp [h1, h2]

/-- C5 amended: terminal job states are immutable under the assignment
operation (assigning a job in any non-PENDING state fails with no state
change), but they are NOT immutable under progress reports:
`handle_job_progress` overwrites the status and all three counters of an
existing job regardless of its current (including terminal) status. -/
theorem terminal_assign_immutable_progress_mutable (s : CoordState)
    (p : JobProgress) (now : Nat) (j : Job)
    (hfind : findJob s.jobs p.job_id = some j)
    (hterm : j.status = JobStatus.completed ∨ j.status = JobStatus.failed ∨
      j.status = JobStatus.cancelled) :
    (∀ wid now', assign_job_to_worker p.job_id wid now' s = (false, s)) ∧
    ∃ j', findJob (handle_job_progress p now s).jobs p.job_id = some j' ∧
      j'.status = p.status ∧ j'.total_videos = p.total_videos ∧
      j'.processed_videos = p.processed_videos ∧
      j'.failed_videos = p.failed_videos := by
  constructor
  · intro wid now'
    apply assign_not_pending
    intro j0 hj0
    rw [hfind] at hj0
    cases hj0
    rcases hterm with h | h | h <;> simp [h]
  · have hup := progressJobUpdate_fields p now j
    have hj' : findJob (handle_job_progress p now s).jobs p.job_id =
        some (progressJobUpdate p now j) := by
      rw [handle_job_progress_jobs p now s j hfind,
          findJob_updateJob s.jobs p.job_id _
            (fun j0 => progressJobUpdate_id p now j0) p.job_id,
          if_pos rfl, hfind]
      rfl
    exact ⟨_, hj', hup.1, hup.2.1, hup.2.2.1, hup.2.2.2.1⟩

/-- Witness for the amended C5 at the concrete COMPLETED job: assignment of
job 1 is refused without mutation, and the late RUNNING report rewrites the
job's status and counters. -/
theorem terminal_assign_immutable_progress_mutable_witness :
    assign_job_to_worker 1 "w" 7 stateDone = (false, stateDone) ∧
    ∃ j', findJob (handle_job_progress lateProgress 9 stateDone).jobs 1 = some j' ∧
      j'.status = JobStatus.running ∧ j'.total_videos = 10 ∧
      j'.processed_videos = 5 ∧ j'.failed_videos = 1 := by
  have h := terminal_assign_immutable_progress_mutable stateDone lateProgress 9
    ({ mkJob 1 JobStatus.completed with completed_at := some 4, processed_videos := 10 })
    rfl (Or.inl rfl)
  exact ⟨h.1 "w" 7, h.2⟩

/-- C8: the `POST /api/jobs` route validates before creating state.  For a
URL rejected by the validator it returns the client error with the state
untouched (no job row, no event); for an accepted URL it returns the created
job, which has status PENDING, and appends exactly that job row and a
`job_created` event. -/
theorem create_job_validates_before_state (url : String) (uname : Option String)
    (now : Nat) (s : CoordState) :
    (validate_tiktok_url url = false →
      create_job url uname now s = (Except.error "Invalid TikTok URL", s)) ∧
    (validate_tiktok_url url = true →
      ∃ job, create_job url uname now s =
          (Except.ok job,
            { s with
              jobs := s.jobs ++ [job]
              events := s.events ++ [Event.job_created job.id] }) ∧
        job.status = JobStatus.pending) := by
  constructor
  · intro h
    simp [create_job, h]
  · intro h
    simp only [create_job, h, if_true]
    exact ⟨_, rfl, rfl⟩

/-- Witness for C8 at concrete inputs: the malformed URL "notaurl" is
rejected with no state created, and a valid profile URL yields a PENDING
job. -/
theorem create_job_validates_before_state_witness :
    create_job "notaurl" none 3 emptyState =
      (Except.error "Invalid TikTok URL", emptyState) ∧
    ∃ job, create_job "https://www.tiktok.com/@user" none 3 emptyState =
        (Except.ok job,
          { emptyState with
            jobs := emptyState.jobs ++ [job]
            events := emptyState.events ++ [Event.job_created job.id] }) ∧
      job.status = JobStatus.pending := by
  constructor
  · exact (create_job_validates_before_state "notaurl" none 3 emptyState).1 (by decide)
  · exact (create_job_validates_before_state "https://www.tiktok.com/@user" none 3
      emptyState).2 (by decide)

lemma async_recovers (s : String) :
    (tiktok_parse_count s = Except.error () → async_parse_count s = 0) ∧
    (∀ v, tiktok_parse_count s = Except.ok v → async_parse_count s = v) := by
  unfold async_parse_count tiktok_parse_count
  by_cases h0 : s = ""
  · simp [h0]
  · simp only [h0, if_false]
    by_cases hK : (cleanCountChars s).contains 'K'
    · simp only [hK, if_true]
      cases hp : pyFloat ((cleanCountChars s).filter fun c => c != 'K') <;>
        simp [hp]
    · simp only [hK, Bool.false_eq_true, if_false]
      by_cases hM : (cleanCountChars s).contains 'M'
      · simp only [hM, if_true]
        cases hp : pyFloat ((cleanCountChars s).filter fun c => c != 'M') <;>
          simp [hp]
      · simp only [hM, Bool.false_eq_true, if_false]
        by_cases hB : (cleanCountChars s).contains 'B'
        · simp only [hB, if_true]
          cases hp : pyFloat ((cleanCountChars s).filter fun c => c != 'B') <;>
            simp [hp]
        · simp only [hB, Bool.false_eq_true, if_false]
          cases hp : pyFloat (cleanCountChars s) <;> simp [hp]

/-- C9: count parsing examples, evaluated on both implementations, plus the
failing input of the `tiktok_scraper.py` copy.  Both map "142.5K" to 142500,
"1.2M" to 1200000 and "0" to 0; the `async_scraper.py` copy returns 0 on
malformed inputs (empty string, "abc", digit-less "K"), but the
`tiktok_scraper.py` copy raises ValueError on "K" because its
`try/except: return 0` protects only the suffix-less branch — and even on
"abc", whose cleaned form is the bare suffix "B". -/
theorem parse_count_examples_and_failing_input :
    async_parse_count "142.5K" = 142500 ∧ async_parse_count "1.2M" = 1200000 ∧
    async_parse_count "0" = 0 ∧ async_parse_count "" = 0 ∧
    async_parse_count "abc" = 0 ∧ async_parse_count "K" = 0 ∧
    tiktok_parse_count "142.5K" = Except.ok 142500 ∧
    tiktok_parse_count "1.2M" = Except.ok 1200000 ∧
    tiktok_parse_count "0" = Except.ok 0 ∧
    tiktok_parse_count "" = Except.ok 0 ∧
    tiktok_parse_count "xyz" = Except.ok 0 ∧
    tiktok_parse_count "K" = Except.error () ∧
    tiktok_parse_count "abc" = Except.error () ∧
    (∀ s, tiktok_parse_count s = Except.error () → async_parse_count s = 0) ∧
    (∀ s v, tiktok_parse_count s = Except.ok v → async_parse_count s = v) :=
  ⟨rfl, rfl, rfl, rfl, rfl, rfl, rfl, rfl, rfl, rfl, rfl, rfl, rfl,
   fun s => (async_recovers s).1, fun s => (async_recovers s).2⟩

/-- Witness for the C9 theorem's quantified conjuncts at the concrete inputs
"K" (uncaught error recovered to 0) and "7" (agreement on success). -/
theorem parse_count_examples_and_failing_input_witness :
    async_parse_count "K" = 0 ∧ async_parse_count "7" = 7 := by
  constructor
  · exact (parse_count_examples_and_failing_input).2.2.2.2.2.2.2.2.2.2.2.2.2.1 "K" rfl
  · exact (parse_count_examples_and_failing_input).2.2.2.2.2.2.2.2.2.2.2.2.2.2 "7" 7 rfl

/-- Generic preservation of a predicate along a left fold. -/
lemma foldl_preserves {β : Type} (P : CoordState → Prop)
    (step : CoordState → β → CoordState)
    (hstep : ∀ t b, P t → P (step t b)) (l : List β) (s : CoordState)
    (h : P s) : P (l.foldl step s) := by
  induction l generalizing s with
  | nil => exact h
  | cons b rest ih => exact ih (step s b) (hstep s b h)

/-- The job with this id has a non-null `assigned_worker_id`. -/
def JobsAwid (jobs : List Job) (jid : Nat) : Prop :=
  ∃ j, findJob jobs jid = some j ∧ j.assigned_worker_id ≠ none

lemma findJob_updateJob_exists (jobs : List Job) (jid' : Nat) (f : Job → Job)
    (hid : ∀ j, (f j).id = j.id) (jid : Nat) (j : Job)
    (h : findJob jobs jid = some j) :
    findJob (updateJob jobs jid' f) jid = some j ∨
    findJob (updateJob jobs jid' f) jid = some (f j) := by
  rw [findJob_updateJob jobs jid' f hid jid]
  by_cases hc : jid = jid'
  · right
    rw [if_pos hc, h]
    rfl
  · left
    rw [if_neg hc, h]

lemma jobsAwid_updateJob (jobs : List Job) (jid' : Nat) (f : Job → Job)
    (hid : ∀ j, (f j).id = j.id)
    (hawid : ∀ j, j.assigned_worker_id ≠ none → (f j).assigned_worker_id ≠ none)
    (jid : Nat) (h : JobsAwid jobs jid) : JobsAwid (updateJob jobs jid' f) jid := by
  obtain ⟨j, hj, hne⟩ := h
  rcases findJob_updateJob_exists jobs jid' f hid jid j hj with h' | h'
  · exact ⟨j, h', hne⟩
  · exact ⟨f j, h', hawid j hne⟩

lemma jobsAwid_append (jobs more : List Job) (jid : Nat)
    (h : JobsAwid jobs jid) : JobsAwid (jobs ++ more) jid := by
  obtain ⟨j, hj, hne⟩ := h
  exact ⟨j, findJob_append jobs more jid j hj, hne⟩

lemma awid_create (url : String) (un : Option String) (now : Nat) (s : CoordState)
    (jid : Nat) (h : JobsAwid s.jobs jid) :
    JobsAwid (create_job url un now s).2.jobs jid := by
  simp only [create_job]
  by_cases hv : validate_tiktok_url url
  · simp only [hv, if_true]
    exact jobsAwid_append _ _ _ h
  · simp only [hv, Bool.false_eq_true, if_false]
    exact h

lemma awid_heartbeat (hb : WorkerHeartbeat) (now : Nat) (s : CoordState)
    (jid : Nat) (h : JobsAwid s.jobs jid) :
    JobsAwid (update_worker_heartbeat hb now s).jobs jid := by
  simp only [update_worker_heartbeat]
  cases alookup hb.worker_id s.active_workers <;> exact h

lemma assign_jobs_cases (jid' : Nat) (wid : String) (now : Nat) (s : CoordState) :
    (assign_job_to_worker jid' wid now s).2.jobs = s.jobs ∨
    (assign_job_to_worker jid' wid now s).2.jobs =
      updateJob s.jobs jid' (fun j =>
        { j with
          status := JobStatus.assigned
          assigned_worker_id := some wid
          started_at := some now }) := by
  simp only [assign_job_to_worker]
  cases hw : alookup wid s.active_workers with
  | none => left; rfl
  | some wd =>
    cases hj : findJob s.jobs jid' with
    | none => left; rfl
    | some job =>
      by_cases hp : job.status = JobStatus.pending
      · right; simp [hp]
      · left; simp [hp]

lemma awid_assign (jid' : Nat) (wid : String) (now : Nat) (s : CoordState)
    (jid : Nat) (h : JobsAwid s.jobs jid) :
    JobsAwid (assign_job_to_worker jid' wid now s).2.jobs jid := by
  rcases assign_jobs_cases jid' wid now s with hc | hc
  · rw [hc]; exact h
  · rw [hc]
    refine jobsAwid_updateJob _ _ _ ?_ ?_ jid h
    · intro j
      rfl
    · intro j hne
      simp

lemma handle_job_progress_jobs_none (p : JobProgress) (now : Nat) (s : CoordState)
    (hfind : findJob s.jobs p.job_id = none) :
    (handle_job_progress p now s).jobs = s.jobs := by
  simp only [handle_job_progress]
  rw [hfind]

lemma awid_progress (p : JobProgress) (now : Nat) (s : CoordState)
    (jid : Nat) (h : JobsAwid s.jobs jid) :
    JobsAwid (handle_job_progress p now s).jobs jid := by
  cases hf : findJob s.jobs p.job_id with
  | none => rw [handle_job_progress_jobs_none p now s hf]; exact h
  | some j0 =>
    rw [handle_job_progress_jobs p now s j0 hf]
    refine jobsAwid_updateJob _ _ _ (fun j => progressJobUpdate_id p now j) ?_ jid h
    intro j hne
    rw [(progressJobUpdate_fields p now j).2.2.2.2]
    exact hne

lemma unregister_jobs_cases (wid reason : String) (now : Nat) (s : CoordState) :
    (unregister_worker wid reason now s).jobs = s.jobs ∨
    ∃ jid'', (unregister_worker wid reason now s).jobs =
      updateJob s.jobs jid''
        (failJobUpdate ("Worker disconnected: " ++ reason) now) := by
  simp only [unregister_worker]
  cases hw : alookup wid s.active_workers with
  | none => left; rfl
  | some wd =>
    cases hc : wd.current_job_id with
    | none =>
      left
      simp only [hc]
    | some jid'' =>
      right
      refine ⟨jid'', ?_⟩
      simp only [hc, handle_worker_job_failure]

lemma awid_unregister (wid reason : String) (now : Nat) (s : CoordState)
    (jid : Nat) (h : JobsAwid s.jobs jid) :
    JobsAwid (unregister_worker wid reason now s).jobs jid := by
  rcases unregister_jobs_cases wid reason now s with hc | ⟨jid'', hc⟩
  · rw [hc]; exact h
  · rw [hc]
    refine jobsAwid_updateJob _ _ _ ?_ ?_ jid h
    · intro j
      rfl
    · intro j hne
      simpa [failJobUpdate] using hne

lemma awid_monitor (now : Nat) (s : CoordState) (jid : Nat)
    (h : JobsAwid s.jobs jid) :
    JobsAwid (worker_monitor_tick now s).jobs jid := by
  simp only [worker_monitor_tick, refreshHeartbeats]
  exact foldl_preserves (fun t => JobsAwid t.jobs jid) _
    (fun t b ht => awid_unregister b "Heartbeat timeout" now t jid ht) _ s h

lemma awid_scheduler (now : Nat) (s : CoordState) (jid : Nat)
    (h : JobsAwid s.jobs jid) :
    JobsAwid (job_assignment_tick now s).jobs jid := by
  simp only [job_assignment_tick]
  exact foldl_preserves (fun t => JobsAwid t.jobs jid) _
    (fun t q ht => awid_assign q.1 q.2 now t jid ht) _ s h

lemma awid_applyOp (s : CoordState) (op : Op) (jid : Nat)
    (h : JobsAwid s.jobs jid) : JobsAwid (applyOp s op).jobs jid := by
  cases op with
  | createJob url un now => exact awid_create url un now s jid h
  | register wid hn ip port now => exact h
  | heartbeat hb now => exact awid_heartbeat hb now s jid h
  | assign jid' wid now => exact awid_assign jid' wid now s jid h
  | progress p now => exact awid_progress p now s jid h
  | unregister wid r now => exact awid_unregister wid r now s jid h
  | monitorTick now => exact awid_monitor now s jid h
  | schedulerTick now => exact awid_scheduler now s jid h

/-- The per-job invariant claimed by C2. -/
def jobWorkerInvariant (s : CoordState) : Prop :=
  ∀ j ∈ s.jobs, (j.assigned_worker_id ≠ none ↔
    (j.status = JobStatus.assigned ∨ j.status = JobStatus.running))

/-- The API sequence of the C2 counterexample: register a worker, create a
job, assign it, then report it COMPLETED. -/
def c2Trace : List Op :=
  [Op.register "w" "host" "ip" 1 0,
   Op.createJob "https://www.tiktok.com/@user" none 1,
   Op.assign 1 "w" 2,
   Op.progress
     { job_id := 1
       worker_id := "w"
       total_videos := 1
       processed_videos := 1
       failed_videos := 0
       current_video_url := none
       status := JobStatus.completed
       message := none } 3]

/-- C2 counterexample: after the reachable API sequence register → createJob
→ assign → progress(COMPLETED), job 1 is COMPLETED yet still carries
`assigned_worker_id = "w"`, so the claimed iff invariant fails. -/
theorem completed_job_keeps_worker_id :
    ¬ jobWorkerInvariant (runOps c2Trace emptyState) := by
  intro h
  have hmem : (findJob (runOps c2Trace emptyState).jobs 1).map
      (fun j => (j.status, j.assigned_worker_id)) =
        some (JobStatus.completed, some "w") := by decide
  cases hfind : findJob (runOps c2Trace emptyState).jobs 1 with
  | none => rw [hfind] at hmem; cases hmem
  | some j =>
    rw [hfind] at hmem
    simp only [Option.map_some', Option.some.injEq, Prod.mk.injEq] at hmem
    obtain ⟨hst, haw⟩ := hmem
    have hj : j ∈ (runOps c2Trace emptyState).jobs :=
      List.mem_of_find?_eq_some hfind
    have hiff := h j hj
    rcases hiff.mp (by simp [haw]) with hc | hc <;> rw [hst] at hc <;> cases hc

/-- C2 amended: `assigned_worker_id` is never cleared — once a job carries a
non-null `assigned_worker_id`, it still carries one after any further
sequence of API operations.  In particular a job moved to FAILED or COMPLETED
retains its worker id, so the claimed iff with status ∈ {ASSIGNED, RUNNING}
does not hold (only the weaker monotonicity proved here does). -/
theorem assigned_worker_id_never_cleared (ops : List Op) (s : CoordState)
    (jid : Nat) (j : Job) (hfind : findJob s.jobs jid = some j)
    (hne : j.assigned_worker_id ≠ none) :
    ∃ j', findJob (runOps ops s).jobs jid = some j' ∧
      j'.assigned_worker_id ≠ none := by
  exact foldl_preserves (fun t => JobsAwid t.jobs jid) applyOp
    (fun t op ht => awid_applyOp t op jid ht) ops s ⟨j, hfind, hne⟩

/-- The job fixture for the C2 witness: already assigned to "w". -/
def jobAssignedW : Job :=
  { mkJob 1 JobStatus.assigned with
    assigned_worker_id := some "w", started_at := some 2 }

/-- The state fixture for the C2 witness. -/
def stateAssigned : CoordState :=
  { jobs := [jobAssignedW]
    workersDb := []
    active_workers := [("w", mkWorker "w" WorkerStatus.busy (some 1))]
    job_assignments := [(1, "w")]
    events := [] }

/-- Witness for the amended C2: after a COMPLETED progress report the
assigned job still has a non-null worker id. -/
theorem assigned_worker_id_never_cleared_witness :
    ∃ j', findJob (runOps
        [Op.progress
          { job_id := 1
            worker_id := "w"
            total_videos := 1
            processed_videos := 1
            failed_videos := 0
            current_video_url := none
            status := JobStatus.completed
            message := none } 3] stateAssigned).jobs 1 = some j' ∧
      j'.assigned_worker_id ≠ none :=
  assigned_worker_id_never_cleared _ stateAssigned 1 jobAssignedW rfl (by decide)

/-- C6: each scheduler tick equals folding the assignment operation over the
greedy pairs — the i-th PENDING job of the store scan with the i-th idle
worker of the registry scan, until either list runs out.  When some job is
pending and at least one worker is idle, the first invoked pair assigns the
oldest PENDING job (minimal `created_at`, given that the insertion-ordered
store is sorted by creation time, which append-only `create_job` with a
monotone clock maintains) to the first idle worker. -/
theorem scheduler_tick_greedy_oldest_first (s : CoordState) (now : Nat)
    (hsorted : s.jobs.Pairwise fun a b => a.created_at ≤ b.created_at)
    (hpend : ∃ j ∈ s.jobs, j.status = JobStatus.pending)
    (hidle : idleWorkerIds s.active_workers ≠ []) :
    job_assignment_tick now s =
      (List.zip (pendingJobIds s.jobs) (idleWorkerIds s.active_workers)).foldl
        (fun acc q => (assign_job_to_worker q.1 q.2 now acc).2) s ∧
    ∃ j rest, j ∈ s.jobs ∧ j.status = JobStatus.pending ∧
      tickPairs s = (j.id, (idleWorkerIds s.active_workers).headD "") :: rest ∧
      ∀ j' ∈ s.jobs, j'.status = JobStatus.pending →
        j.created_at ≤ j'.created_at := by
  refine ⟨rfl, ?_⟩
  obtain ⟨j0, hj0mem, hj0st⟩ := hpend
  have hfmem : j0 ∈ s.jobs.filter (fun j => j.status == JobStatus.pending) :=
    List.mem_filter.mpr ⟨hj0mem, by simp [hj0st]⟩
  cases hP : s.jobs.filter (fun j => j.status == JobStatus.pending) with
  | nil => rw [hP] at hfmem; cases hfmem
  | cons jh jt =>
    cases hI : idleWorkerIds s.active_workers with
    | nil => exact absurd hI hidle
    | cons w ws =>
      have hhP : jh ∈ s.jobs.filter (fun j => j.status == JobStatus.pending) := by
        rw [hP]
        exact List.mem_cons_self jh jt
      have hjh := List.mem_filter.mp hhP
      refine ⟨jh, List.zip (jt.map Job.id) ws, hjh.1, by simpa using hjh.2, ?_, ?_⟩
      · simp [tickPairs, pendingJobIds, hP, hI]
      · intro j' hj' hst'
        have hj'P : j' ∈ s.jobs.filter (fun j => j.status == JobStatus.pending) :=
          List.mem_filter.mpr ⟨hj', by simp [hst']⟩
        rw [hP] at hj'P
        rcases List.mem_cons.mp hj'P with he | hm
        · rw [he]
        · have hPW : (s.jobs.filter
              (fun j => j.status == JobStatus.pending)).Pairwise
              (fun a b => a.created_at ≤ b.created_at) :=
            hsorted.sublist (List.filter_sublist s.jobs)
          rw [hP] at hPW
          exact (List.pairwise_cons.mp hPW).1 j' hm

/-- The state for the C6 witness: one COMPLETED and two PENDING jobs sorted
by creation time, two idle workers. -/
def stateC6 : CoordState :=
  { jobs := [mkJob 1 JobStatus.completed,
             { mkJob 2 JobStatus.pending with created_at := 3 },
             { mkJob 3 JobStatus.pending with created_at := 5 }]
    workersDb := []
    active_workers := [("w1", mkWorker "w1" WorkerStatus.idle none),
                       ("w2", mkWorker "w2" WorkerStatus.idle none)]
    job_assignments := []
    events := [] }

/-- Witness for C6 at a concrete state: the tick is the greedy fold and its
first pair takes the oldest pending job (id 2, created 3) and worker "w1". -/
theorem scheduler_tick_greedy_oldest_first_witness :
    job_assignment_tick 9 stateC6 =
      (List.zip (pendingJobIds stateC6.jobs)
        (idleWorkerIds stateC6.active_workers)).foldl
        (fun acc q => (assign_job_to_worker q.1 q.2 9 acc).2) stateC6 ∧
    ∃ j rest, j ∈ stateC6.jobs ∧ j.status = JobStatus.pending ∧
      tickPairs stateC6 =
        (j.id, (idleWorkerIds stateC6.active_workers).headD "") :: rest ∧
      ∀ j' ∈ stateC6.jobs, j'.status = JobStatus.pending →
        j.created_at ≤ j'.created_at :=
  scheduler_tick_greedy_oldest_first stateC6 9 (by decide) (by decide) (by decide)

lemma unregister_eq_of_job (wid reason : String) (now : Nat) (wd : WorkerData)
    (jid : Nat) (s : CoordState)
    (hw : alookup wid s.active_workers = some wd)
    (hcj : wd.current_job_id = some jid) :
    unregister_worker wid reason now s =
      { jobs := updateJob s.jobs jid
          (failJobUpdate ("Worker disconnected: " ++ reason) now)
        workersDb := updateRow s.workersDb wid (offlineRowUpdate now)
        active_workers := aerase wid s.active_workers
        job_assignments := aerase jid s.job_assignments
        events := (s.events ++
            [Event.job_failed jid ("Worker disconnected: " ++ reason)]) ++
          [Event.worker_disconnected wid reason] } := by
  simp only [unregister_worker]
  rw [hw]
  simp only [hcj, handle_worker_job_failure]

lemma unregister_eq_of_nojob (wid reason : String) (now : Nat) (wd : WorkerData)
    (s : CoordState)
    (hw : alookup wid s.active_workers = some wd)
    (hcj : wd.current_job_id = none) :
    unregister_worker wid reason now s =
      { jobs := s.jobs
        workersDb := updateRow s.workersDb wid (offlineRowUpdate now)
        active_workers := aerase wid s.active_workers
        job_assignments := s.job_assignments
        events := s.events ++ [Event.worker_disconnected wid reason] } := by
  simp only [unregister_worker]
  rw [hw]
  simp only [hcj]

lemma alookup_mem {κ α : Type} [DecidableEq κ] (k : κ) (v : α)
    (l : List (κ × α)) (h : alookup k l = some v) : (k, v) ∈ l := by
  induction l with
  | nil => cases h
  | cons p rest ih =>
    obtain ⟨k0, v0⟩ := p
    by_cases h0 : k0 = k
    · rw [show alookup k ((k0, v0) :: rest) = some v0 by simp [alookup, h0]] at h
      cases h
      rw [h0]
      exact List.mem_cons_self _ _
    · rw [show alookup k ((k0, v0) :: rest) = alookup k rest by
        simp [alookup, h0]] at h
      exact List.mem_cons_of_mem _ (ih h)

lemma mem_staleWorkerIds (now : Nat) (aw : List (String × WorkerData))
    (wid : String) (wd : WorkerData) (hw : alookup wid aw = some wd)
    (hstale : 60 < now - wd.last_heartbeat) : wid ∈ staleWorkerIds now aw := by
  simp only [staleWorkerIds, List.mem_map]
  exact ⟨(wid, wd), List.mem_filter.mpr ⟨alookup_mem wid wd aw hw,
    by simpa using hstale⟩, rfl⟩

lemma unregister_alookup_other (wid' wid reason : String) (now : Nat)
    (s : CoordState) (h : ¬ wid = wid') :
    alookup wid (unregister_worker wid' reason now s).active_workers =
      alookup wid s.active_workers := by
  cases hw : alookup wid' s.active_workers with
  | none => rw [unregister_absent_noop s wid' reason now hw]
  | some wd =>
    cases hcj : wd.current_job_id with
    | none =>
      rw [unregister_eq_of_nojob wid' reason now wd s hw hcj]
      simp [alookup_aerase, h]
    | some jid'' =>
      rw [unregister_eq_of_job wid' reason now wd jid'' s hw hcj]
      simp [alookup_aerase, h]

lemma unregister_preserves_awidEq (wid' reason : String) (now : Nat)
    (jid : Nat) (a : Option String) (s : CoordState)
    (h : ∃ j', findJob s.jobs jid = some j' ∧ j'.assigned_worker_id = a) :
    ∃ j', findJob (unregister_worker wid' reason now s).jobs jid = some j' ∧
      j'.assigned_worker_id = a := by
  rcases unregister_jobs_cases wid' reason now s with hc | ⟨jid'', hc⟩
  · rw [hc]; exact h
  · rw [hc]
    obtain ⟨j', hj', ha⟩ := h
    rcases findJob_updateJob_exists s.jobs jid''
        (failJobUpdate ("Worker disconnected: " ++ reason) now)
        (fun j => rfl) jid j' hj' with h' | h'
    · exact ⟨j', h', ha⟩
    · exact ⟨_, h', ha⟩

/-- The post-state the liveness monitor must produce for a reaped worker
`wid` that held job `jid` (where `a` is the job's `assigned_worker_id`
before the tick): the job is FAILED with the disconnect message and
`completed_at = now` while its `assigned_worker_id` is retained; the worker
is gone from `active_workers`; its store row (when one exists) is OFFLINE;
and the worker-disconnected and job-failed events were broadcast. -/
def ReapedOutcome (wid : String) (jid : Nat) (now : Nat) (a : Option String)
    (t : CoordState) : Prop :=
  (∃ j', findJob t.jobs jid = some j' ∧ j'.status = JobStatus.failed ∧
    j'.error_message = some "Worker disconnected: Heartbeat timeout" ∧
    j'.completed_at = some now ∧ j'.assigned_worker_id = a) ∧
  alookup wid t.active_workers = none ∧
  (∀ r, findRow t.workersDb wid = some r → r.status = WorkerStatus.offline) ∧
  Event.worker_disconnected wid "Heartbeat timeout" ∈ t.events ∧
  Event.job_failed jid "Worker disconnected: Heartbeat timeout" ∈ t.events

lemma rows_offline_updateRow (rows : List WorkerRow) (wid' wid : String)
    (f : WorkerRow → WorkerRow) (hid : ∀ r, (f r).id = r.id)
    (h : ∀ r, findRow rows wid = some r → r.status = WorkerStatus.offline)
    (hnew : ∀ r, (f r).status = WorkerStatus.offline ∨
      (f r).status = r.status) :
    ∀ r, findRow (updateRow rows wid' f) wid = some r →
      r.status = WorkerStatus.offline := by
  intro r hr
  rw [findRow_updateRow rows wid' f hid wid] at hr
  by_cases hww : wid = wid'
  · rw [if_pos hww] at hr
    cases hm : findRow rows wid with
    | none => rw [hm] at hr; cases hr
    | some r0 =>
      rw [hm] at hr
      simp only [Option.map_some'] at hr
      cases hr
      rcases hnew r0 with hn | hn
      · exact hn
      · rw [hn]
        exact h r0 hm
  · rw [if_neg hww] at hr
    exact h r hr

lemma unregister_establishes (wid : String) (now : Nat) (jid : Nat)
    (wd : WorkerData) (j : Job) (s : CoordState)
    (hw : alookup wid s.active_workers = some wd)
    (hcj : wd.current_job_id = some jid)
    (hj : findJob s.jobs jid = some j) :
    ReapedOutcome wid jid now j.assigned_worker_id
      (unregister_worker wid "Heartbeat timeout" now s) := by
  rw [unregister_eq_of_job wid "Heartbeat timeout" now wd jid s hw hcj]
  refine ⟨⟨failJobUpdate ("Worker disconnected: " ++ "Heartbeat timeout") now j,
      ?_, rfl, rfl, rfl, rfl⟩, ?_, ?_, ?_, ?_⟩
  · rw [findJob_updateJob s.jobs jid
        (failJobUpdate ("Worker disconnected: " ++ "Heartbeat timeout") now)
        (fun j0 => rfl) jid, if_pos rfl, hj]
    rfl
  · simp [alookup_aerase]
  · intro r hr
    rw [findRow_updateRow s.workersDb wid (offlineRowUpdate now)
        (fun r0 => rfl) wid, if_pos rfl] at hr
    cases hm : findRow s.workersDb wid with
    | none => rw [hm] at hr; cases hr
    | some r0 =>
      rw [hm] at hr
      simp only [Option.map_some'] at hr
      cases hr
      rfl
  · simp
  · simp

lemma unregister_preserves_reaped (wid' wid : String) (jid : Nat) (now : Nat)
    (a : Option String) (s : CoordState)
    (h : ReapedOutcome wid jid now a s) :
    ReapedOutcome wid jid now a
      (unregister_worker wid' "Heartbeat timeout" now s) := by
  obtain ⟨⟨j', hj', hst, herr, hcomp, hawid⟩, hlk, hrows, hev1, hev2⟩ := h
  cases hw : alookup wid' s.active_workers with
  | none =>
    rw [unregister_absent_noop s wid' "Heartbeat timeout" now hw]
    exact ⟨⟨j', hj', hst, herr, hcomp, hawid⟩, hlk, hrows, hev1, hev2⟩
  | some wd =>
    cases hcj : wd.current_job_id with
    | none =>
      rw [unregister_eq_of_nojob wid' "Heartbeat timeout" now wd s hw hcj]
      refine ⟨⟨j', hj', hst, herr, hcomp, hawid⟩, ?_, ?_, ?_, ?_⟩
      · rw [alookup_aerase]
        by_cases hww : wid = wid' <;> simp [hww, hlk]
      · exact rows_offline_updateRow s.workersDb wid' wid (offlineRowUpdate now)
          (fun r0 => rfl) hrows (fun r0 => Or.inl rfl)
      · simp [hev1]
      · simp [hev2]
    | some jid'' =>
      rw [unregister_eq_of_job wid' "Heartbeat timeout" now wd jid'' s hw hcj]
      refine ⟨?_, ?_, ?_, ?_, ?_⟩
      · by_cases hjj : jid = jid''
        · subst hjj
          refine ⟨failJobUpdate ("Worker disconnected: " ++ "Heartbeat timeout")
              now j', ?_, rfl, rfl, rfl, ?_⟩
          · rw [findJob_updateJob s.jobs jid
                (failJobUpdate ("Worker disconnected: " ++ "Heartbeat timeout") now)
                (fun j0 => rfl) jid, if_pos rfl, hj']
            rfl
          · exact hawid
        · refine ⟨j', ?_, hst, herr, hcomp, hawid⟩
          rw [findJob_updateJob s.jobs jid''
              (failJobUpdate ("Worker disconnected: " ++ "Heartbeat timeout") now)
              (fun j0 => rfl) jid, if_neg hjj]
          exact hj'
      · rw [alookup_aerase]
        by_cases hww : wid = wid' <;> simp [hww, hlk]
      · exact rows_offline_updateRow s.workersDb wid' wid (offlineRowUpdate now)
          (fun r0 => rfl) hrows (fun r0 => Or.inl rfl)
      · simp [hev1]
      · simp [hev2]

lemma fold_unregister_reaches (L : List String) (wid : String) (jid : Nat)
    (now : Nat) (a : Option String) (s : CoordState)
    (hmem : wid ∈ L)
    (hw : ∃ wd, alookup wid s.active_workers = some wd ∧
      wd.current_job_id = some jid)
    (hj : ∃ j', findJob s.jobs jid = some j' ∧ j'.assigned_worker_id = a) :
    ReapedOutcome wid jid now a
      (L.foldl (fun acc w => unregister_worker w "Heartbeat timeout" now acc) s) := by
  induction L generalizing s with
  | nil => cases hmem
  | cons w0 rest ih =>
    simp only [List.foldl_cons]
    by_cases h0 : w0 = wid
    · subst h0
      obtain ⟨wd, hwl, hcj⟩ := hw
      obtain ⟨j', hj', hawid⟩ := hj
      have hest := unregister_establishes w0 now jid wd j' s hwl hcj hj'
      rw [hawid] at hest
      exact foldl_preserves (ReapedOutcome w0 jid now a) _
        (fun t b ht => unregister_preserves_reaped b w0 jid now a t ht) rest _ hest
    · rcases List.mem_cons.mp hmem with he | hm
      · exact absurd he.symm h0
      · refine ih _ hm ?_ ?_
        · obtain ⟨wd, hwl, hcj⟩ := hw
          refine ⟨wd, ?_, hcj⟩
          rw [unregister_alookup_other w0 wid "Heartbeat timeout" now s
            (fun hc => h0 hc.symm)]
          exact hwl
        · exact unregister_preserves_awidEq w0 "Heartbeat timeout" now jid a s hj

lemma rows_offline_fold (l : List (String × WorkerData)) (now' : Nat)
    (wid : String) (rows : List WorkerRow)
    (h : ∀ r, findRow rows wid = some r → r.status = WorkerStatus.offline) :
    ∀ r, findRow (l.foldl (fun rows2 p =>
        updateRow rows2 p.1 fun r => { r with last_heartbeat := now' }) rows)
        wid = some r → r.status = WorkerStatus.offline := by
  induction l generalizing rows with
  | nil => exact h
  | cons p rest ih =>
    simp only [List.foldl_cons]
    apply ih
    exact rows_offline_updateRow rows p.1 wid
      (fun r => { r with last_heartbeat := now' })
      (fun r0 => rfl) h (fun r0 => Or.inr rfl)

lemma refresh_preserves_reaped (now' : Nat) (wid : String) (jid : Nat)
    (now : Nat) (a : Option String) (s : CoordState)
    (h : ReapedOutcome wid jid now a s) :
    ReapedOutcome wid jid now a (refreshHeartbeats now' s) := by
  obtain ⟨hjob, hlk, hrows, hev1, hev2⟩ := h
  exact ⟨hjob, hlk, rows_offline_fold s.active_workers now' wid s.workersDb hrows,
    hev1, hev2⟩

/-- C4: one liveness-monitor tick reaps every worker whose last heartbeat is
more than 60 seconds old.  If such a stale worker holds a job, after the tick
that job is FAILED with the "Worker disconnected: Heartbeat timeout" message
and `completed_at = now`, its `assigned_worker_id` is retained (equal to its
pre-tick value), the worker is removed from the in-memory `active_workers`
map, its store row is marked OFFLINE, and both the worker-disconnected and
job-failed events are published. -/
theorem stale_worker_reap (s : CoordState) (now : Nat) (wid : String)
    (wd : WorkerData) (jid : Nat) (j : Job)
    (hw : alookup wid s.active_workers = some wd)
    (hstale : 60 < now - wd.last_heartbeat)
    (hcj : wd.current_job_id = some jid)
    (hj : findJob s.jobs jid = some j) :
    ReapedOutcome wid jid now j.assigned_worker_id (worker_monitor_tick now s) := by
  have hmem := mem_staleWorkerIds now s.active_workers wid wd hw hstale
  unfold worker_monitor_tick
  apply refresh_preserves_reaped
  exact fold_unregister_reaches (staleWorkerIds now s.active_workers) wid jid now
    j.assigned_worker_id s hmem ⟨wd, hw, hcj⟩ ⟨j, hj, rfl⟩

/-- The job fixture for the C4 witness: assigned to worker "w". -/
def jobC4 : Job :=
  { mkJob 1 JobStatus.assigned with
    assigned_worker_id := some "w", started_at := some 2 }

/-- The state fixture for the C4 witness: worker "w" holds job 1 and last
heartbeated at time 0. -/
def stateC4 : CoordState :=
  { jobs := [jobC4]
    workersDb := [{ id := "w", hostname := "host", status := WorkerStatus.busy,
                    last_heartbeat := 0, current_job_id := some 1 }]
    active_workers := [("w", mkWorker "w" WorkerStatus.busy (some 1))]
    job_assignments := [(1, "w")]
    events := [] }

/-- Witness for C4 at the concrete state: at time 100 the monitor tick reaps
"w" (heartbeat 100 seconds old) and fails its job 1, retaining the worker id. -/
theorem stale_worker_reap_witness :
    ReapedOutcome "w" 1 100 (some "w") (worker_monitor_tick 100 stateC4) :=
  stale_worker_reap stateC4 100 "w" (mkWorker "w" WorkerStatus.busy (some 1)) 1
    jobC4 rfl (by decide) rfl rfl

lemma dropLit_eq_some_iff (l cs r : List Char) :
    dropLit l cs = some r ↔ cs = l ++ r := by
  induction l generalizing cs with
  | nil => simp [dropLit, eq_comm]
  | cons c ls ih =>
    cases cs with
    | nil => simp [dropLit]
    | cons c0 cs0 =>
      by_cases h : c0 = c
      · subst h
        simp [dropLit, ih]
      · simp [dropLit, h]

lemma dropLit_append (l r : List Char) : dropLit l (l ++ r) = some r :=
  (dropLit_eq_some_iff l (l ++ r) r).mpr rfl

lemma dropLit_none_of_take_ne (v h : List Char)
    (hne : h.take (min h.length v.length) ≠ v.take (min h.length v.length)) :
    ∀ r, dropLit v (h ++ r) = none := by
  intro r
  cases hd : dropLit v (h ++ r) with
  | none => rfl
  | some r' =>
    exfalso
    apply hne
    have he : h ++ r = v ++ r' := (dropLit_eq_some_iff _ _ _).mp hd
    have h1 : (h ++ r).take (min h.length v.length) =
        h.take (min h.length v.length) :=
      List.take_append_of_le_length (Nat.min_le_left _ _)
    have h2 : (v ++ r').take (min h.length v.length) =
        v.take (min h.length v.length) :=
      List.take_append_of_le_length (Nat.min_le_right _ _)
    rw [← h1, he, h2]

lemma dropFirstLit_some (lits : List (List Char)) (cs r : List Char)
    (h : dropFirstLit lits cs = some r) : ∃ l ∈ lits, cs = l ++ r := by
  induction lits with
  | nil => cases h
  | cons l0 rest ih =>
    simp only [dropFirstLit] at h
    cases hd : dropLit l0 cs with
    | some cs' =>
      rw [hd] at h
      cases h
      exact ⟨l0, by simp, (dropLit_eq_some_iff _ _ _).mp hd⟩
    | none =>
      rw [hd] at h
      obtain ⟨l, hl, he⟩ := ih h
      exact ⟨l, by simp [hl], he⟩

lemma dropFirstLit_hostVariants (h r : List Char)
    (hh : h = "https://www.tiktok.com".toList ∨ h = "https://tiktok.com".toList ∨
      h = "http://www.tiktok.com".toList ∨ h = "http://tiktok.com".toList) :
    dropFirstLit hostVariants (h ++ r) = some r := by
  rcases hh with h1 | h1 | h1 | h1 <;> subst h1
  · simp only [hostVariants, dropFirstLit, dropLit_append]
  · have e1 : dropLit "https://www.tiktok.com".toList
        ("https://tiktok.com".toList ++ r) = none :=
      dropLit_none_of_take_ne _ _ (by decide) r
    simp only [hostVariants, dropFirstLit, e1, dropLit_append]
  · have e1 : dropLit "https://www.tiktok.com".toList
        ("http://www.tiktok.com".toList ++ r) = none :=
      dropLit_none_of_take_ne _ _ (by decide) r
    have e2 : dropLit "https://tiktok.com".toList
        ("http://www.tiktok.com".toList ++ r) = none :=
      dropLit_none_of_take_ne _ _ (by decide) r
    simp only [hostVariants, dropFirstLit, e1, e2, dropLit_append]
  · have e1 : dropLit "https://www.tiktok.com".toList
        ("http://tiktok.com".toList ++ r) = none :=
      dropLit_none_of_take_ne _ _ (by decide) r
    have e2 : dropLit "https://tiktok.com".toList
        ("http://tiktok.com".toList ++ r) = none :=
      dropLit_none_of_take_ne _ _ (by decide) r
    have e3 : dropLit "http://www.tiktok.com".toList
        ("http://tiktok.com".toList ++ r) = none :=
      dropLit_none_of_take_ne _ _ (by decide) r
    simp only [hostVariants, dropFirstLit, e1, e2, e3, dropLit_append]

lemma dropFirstLit_vmVariants (h r : List Char)
    (hh : h = "https://vm.tiktok.com/".toList ∨
      h = "http://vm.tiktok.com/".toList) :
    dropFirstLit vmVariants (h ++ r) = some r := by
  rcases hh with h1 | h1 <;> subst h1
  · simp only [vmVariants, dropFirstLit, dropLit_append]
  · have e1 : dropLit "https://vm.tiktok.com/".toList
        ("http://vm.tiktok.com/".toList ++ r) = none :=
      dropLit_none_of_take_ne _ _ (by decide) r
    simp only [vmVariants, dropFirstLit, e1, dropLit_append]

lemma dropClassPlus_some (p : Char → Bool) (cs r : List Char)
    (h : dropClassPlus p cs = some r) :
    ∃ u, u ≠ [] ∧ (∀ c ∈ u, p c = true) ∧ cs = u ++ r := by
  cases cs with
  | nil => cases h
  | cons c cs0 =>
    by_cases hc : p c
    · rw [show dropClassPlus p (c :: cs0) = some (cs0.dropWhile p) by
        simp [dropClassPlus, hc]] at h
      cases h
      refine ⟨c :: cs0.takeWhile p, by simp, ?_, ?_⟩
      · intro x hx
        rcases List.mem_cons.mp hx with he | hm
        · rw [he]; exact hc
        · exact List.mem_takeWhile_imp hm
      · simp [List.takeWhile_append_dropWhile]
    · simp [dropClassPlus, hc] at h

lemma dropWhile_append_all (p : Char → Bool) (u rest : List Char)
    (hall : ∀ c ∈ u, p c = true) :
    List.dropWhile p (u ++ rest) = List.dropWhile p rest := by
  induction u with
  | nil => rfl
  | cons c u' ih =>
    rw [List.cons_append, List.dropWhile_cons, if_pos (hall c (by simp))]
    exact ih fun c0 hc0 => hall c0 (by simp [hc0])

lemma dropClassPlus_exact (p : Char → Bool) (u : List Char) (c0 : Char)
    (rest : List Char) (hu : u ≠ []) (hall : ∀ c ∈ u, p c = true)
    (hc0 : p c0 = false) :
    dropClassPlus p (u ++ (c0 :: rest)) = some (c0 :: rest) := by
  cases u with
  | nil => exact absurd rfl hu
  | cons c u' =>
    rw [List.cons_append,
      show dropClassPlus p (c :: (u' ++ (c0 :: rest))) =
        some ((u' ++ (c0 :: rest)).dropWhile p) by
          simp [dropClassPlus, hall c (by simp)],
      dropWhile_append_all p u' _ fun x hx => hall x (by simp [hx]),
      List.dropWhile_cons, if_neg (by simp [hc0])]

lemma dropClassPlus_isSome (p : Char → Bool) (u rest : List Char)
    (hu : u ≠ []) (hall : ∀ c ∈ u, p c = true) :
    (dropClassPlus p (u ++ rest)).isSome = true := by
  cases u with
  | nil => exact absurd rfl hu
  | cons c u' =>
    rw [List.cons_append]
    simp [dropClassPlus, hall c (by simp)]

/-- The four literal expansions of `https?://(?:www\.)?tiktok\.com`. -/
def HostLit (h : List Char) : Prop :=
  h = "https://www.tiktok.com".toList ∨ h = "https://tiktok.com".toList ∨
  h = "http://www.tiktok.com".toList ∨ h = "http://tiktok.com".toList

/-- The two literal expansions of `https?://vm\.tiktok\.com/`. -/
def VmLit (h : List Char) : Prop :=
  h = "https://vm.tiktok.com/".toList ∨ h = "http://vm.tiktok.com/".toList

/-- A full match of `https?://(?:www\.)?tiktok\.com/@[\w.-]+/video/\d+`. -/
def VideoShape (q : List Char) : Prop :=
  ∃ h u d, HostLit h ∧ u ≠ [] ∧ (∀ c ∈ u, isUserChar c = true) ∧
    d ≠ [] ∧ (∀ c ∈ d, c.isDigit = true) ∧
    q = h ++ "/@".toList ++ u ++ "/video/".toList ++ d

/-- A full match of `https?://(?:www\.)?tiktok\.com/t/\w+`. -/
def ShortShape (q : List Char) : Prop :=
  ∃ h w, HostLit h ∧ w ≠ [] ∧ (∀ c ∈ w, isWordChar c = true) ∧
    q = h ++ "/t/".toList ++ w

/-- A full match of `https?://vm\.tiktok\.com/\w+`. -/
def VmShape (q : List Char) : Prop :=
  ∃ h w, VmLit h ∧ w ≠ [] ∧ (∀ c ∈ w, isWordChar c = true) ∧ q = h ++ w

/-- A full match of `https?://(?:www\.)?tiktok\.com/@[\w.-]+`. -/
def ProfileShape (q : List Char) : Prop :=
  ∃ h u, HostLit h ∧ u ≠ [] ∧ (∀ c ∈ u, isUserChar c = true) ∧
    q = h ++ "/@".toList ++ u

/-- One of the four accepted TikTok URL shapes. -/
def TikTokUrlShape (q : List Char) : Prop :=
  VideoShape q ∨ ShortShape q ∨ VmShape q ∨ ProfileShape q

/-- The declarative reading of C10: the (stripped) input begins with one of
the four shapes, with arbitrary trailing characters. -/
def StartsWithTikTokShape (cs : List Char) : Prop :=
  ∃ q t, TikTokUrlShape q ∧ cs = q ++ t

lemma bind_isSome {α β : Type} (o : Option α) (f : α → Option β)
    (h : (o >>= f).isSome = true) : ∃ a, o = some a ∧ (f a).isSome = true := by
  cases o with
  | none => cases h
  | some a => exact ⟨a, rfl, h⟩

lemma bind_isSome_intro {α β : Type} (o : Option α) (f : α → Option β) (a : α)
    (ho : o = some a) (hf : (f a).isSome = true) : (o >>= f).isSome = true := by
  rw [ho]
  exact hf

lemma bind_pure_isSome {α : Type} (o : Option α) (ho : o.isSome = true) :
    (o >>= fun _ => (pure () : Option Unit)).isSome = true := by
  cases o with
  | none => cases ho
  | some a => rfl

lemma matchVideoUrl_forward (cs : List Char) (h : matchVideoUrl cs = true) :
    ∃ q t, VideoShape q ∧ cs = q ++ t := by
  unfold matchVideoUrl at h
  obtain ⟨r1, h1, h⟩ := bind_isSome _ _ h
  obtain ⟨r2, h2, h⟩ := bind_isSome _ _ h
  obtain ⟨r3, h3, h⟩ := bind_isSome _ _ h
  obtain ⟨r4, h4, h⟩ := bind_isSome _ _ h
  obtain ⟨r5, h5, _⟩ := bind_isSome _ _ h
  obtain ⟨l, hl, hcs⟩ := dropFirstLit_some _ _ _ h1
  have hhost : HostLit l := by simpa [hostVariants, HostLit] using hl
  have hr1 : r1 = "/@".toList ++ r2 := (dropLit_eq_some_iff _ _ _).mp h2
  obtain ⟨u, hu, hallu, hr2⟩ := dropClassPlus_some _ _ _ h3
  have hr3 : r3 = "/video/".toList ++ r4 := (dropLit_eq_some_iff _ _ _).mp h4
  obtain ⟨d, hd, halld, hr4⟩ := dropClassPlus_some _ _ _ h5
  refine ⟨l ++ "/@".toList ++ u ++ "/video/".toList ++ d, r5,
    ⟨l, u, d, hhost, hu, hallu, hd, halld, rfl⟩, ?_⟩
  rw [hcs, hr1, hr2, hr3, hr4]
  simp [List.append_assoc]

lemma matchVideoUrl_backward (q t : List Char) (h : VideoShape q) :
    matchVideoUrl (q ++ t) = true := by
  obtain ⟨l, u, d, hhost, hu, hallu, hd, halld, hq⟩ := h
  subst hq
  unfold matchVideoUrl
  apply bind_isSome_intro _ _ ("/@".toList ++ (u ++ ("/video/".toList ++ (d ++ t))))
  · rw [show (l ++ "/@".toList ++ u ++ "/video/".toList ++ d) ++ t =
        l ++ ("/@".toList ++ (u ++ ("/video/".toList ++ (d ++ t)))) by
      simp [List.append_assoc]]
    exact dropFirstLit_hostVariants l _ hhost
  · apply bind_isSome_intro _ _ (u ++ ("/video/".toList ++ (d ++ t)))
    · exact dropLit_append _ _
    · apply bind_isSome_intro _ _ ("/video/".toList ++ (d ++ t))
      · rw [show "/video/".toList ++ (d ++ t) =
            '/' :: ("video/".toList ++ (d ++ t)) from rfl]
        exact dropClassPlus_exact isUserChar u '/' _ hu hallu (by decide)
      · apply bind_isSome_intro _ _ (d ++ t)
        · exact dropLit_append _ _
        · exact bind_pure_isSome _ (dropClassPlus_isSome Char.isDigit d t hd halld)

lemma matchShortUrl_forward (cs : List Char) (h : matchShortUrl cs = true) :
    ∃ q t, ShortShape q ∧ cs = q ++ t := by
  unfold matchShortUrl at h
  obtain ⟨r1, h1, h⟩ := bind_isSome _ _ h
  obtain ⟨r2, h2, h⟩ := bind_isSome _ _ h
  obtain ⟨r3, h3, _⟩ := bind_isSome _ _ h
  obtain ⟨l, hl, hcs⟩ := dropFirstLit_some _ _ _ h1
  have hhost : HostLit l := by simpa [hostVariants, HostLit] using hl
  have hr1 : r1 = "/t/".toList ++ r2 := (dropLit_eq_some_iff _ _ _).mp h2
  obtain ⟨w, hw, hallw, hr2⟩ := dropClassPlus_some _ _ _ h3
  refine ⟨l ++ "/t/".toList ++ w, r3, ⟨l, w, hhost, hw, hallw, rfl⟩, ?_⟩
  rw [hcs, hr1, hr2]
  simp [List.append_assoc]

lemma matchShortUrl_backward (q t : List Char) (h : ShortShape q) :
    matchShortUrl (q ++ t) = true := by
  obtain ⟨l, w, hhost, hw, hallw, hq⟩ := h
  subst hq
  unfold matchShortUrl
  apply bind_isSome_intro _ _ ("/t/".toList ++ (w ++ t))
  · rw [show (l ++ "/t/".toList ++ w) ++ t =
        l ++ ("/t/".toList ++ (w ++ t)) by simp [List.append_assoc]]
    exact dropFirstLit_hostVariants l _ hhost
  · apply bind_isSome_intro _ _ (w ++ t)
    · exact dropLit_append _ _
    · exact bind_pure_isSome _ (dropClassPlus_isSome isWordChar w t hw hallw)

lemma matchVmUrl_forward (cs : List Char) (h : matchVmUrl cs = true) :
    ∃ q t, VmShape q ∧ cs = q ++ t := by
  unfold matchVmUrl at h
  obtain ⟨r1, h1, h⟩ := bind_isSome _ _ h
  obtain ⟨r2, h2, _⟩ := bind_isSome _ _ h
  obtain ⟨l, hl, hcs⟩ := dropFirstLit_some _ _ _ h1
  have hhost : VmLit l := by simpa [vmVariants, VmLit] using hl
  obtain ⟨w, hw, hallw, hr1⟩ := dropClassPlus_some _ _ _ h2
  refine ⟨l ++ w, r2, ⟨l, w, hhost, hw, hallw, rfl⟩, ?_⟩
  rw [hcs, hr1]
  simp [List.append_assoc]

lemma matchVmUrl_backward (q t : List Char) (h : VmShape q) :
    matchVmUrl (q ++ t) = true := by
  obtain ⟨l, w, hhost, hw, hallw, hq⟩ := h
  subst hq
  unfold matchVmUrl
  apply bind_isSome_intro _ _ (w ++ t)
  · rw [show (l ++ w) ++ t = l ++ (w ++ t) by simp [List.append_assoc]]
    exact dropFirstLit_vmVariants l _ hhost
  · exact bind_pure_isSome _ (dropClassPlus_isSome isWordChar w t hw hallw)

lemma matchProfileUrl_forward (cs : List Char) (h : matchProfileUrl cs = true) :
    ∃ q t, ProfileShape q ∧ cs = q ++ t := by
  unfold matchProfileUrl at h
  obtain ⟨r1, h1, h⟩ := bind_isSome _ _ h
  obtain ⟨r2, h2, h⟩ := bind_isSome _ _ h
  obtain ⟨r3, h3, _⟩ := bind_isSome _ _ h
  obtain ⟨l, hl, hcs⟩ := dropFirstLit_some _ _ _ h1
  have hhost : HostLit l := by simpa [hostVariants, HostLit] using hl
  have hr1 : r1 = "/@".toList ++ r2 := (dropLit_eq_some_iff _ _ _).mp h2
  obtain ⟨u, hu, hallu, hr2⟩ := dropClassPlus_some _ _ _ h3
  refine ⟨l ++ "/@".toList ++ u, r3, ⟨l, u, hhost, hu, hallu, rfl⟩, ?_⟩
  rw [hcs, hr1, hr2]
  simp [List.append_assoc]

lemma matchProfileUrl_backward (q t : List Char) (h : ProfileShape q) :
    matchProfileUrl (q ++ t) = true := by
  obtain ⟨l, u, hhost, hu, hallu, hq⟩ := h
  subst hq
  unfold matchProfileUrl
  apply bind_isSome_intro _ _ ("/@".toList ++ (u ++ t))
  · rw [show (l ++ "/@".toList ++ u) ++ t =
        l ++ ("/@".toList ++ (u ++ t)) by simp [List.append_assoc]]
    exact dropFirstLit_hostVariants l _ hhost
  · apply bind_isSome_intro _ _ (u ++ t)
    · exact dropLit_append _ _
    · exact bind_pure_isSome _ (dropClassPlus_isSome isUserChar u t hu hallu)

/-- C10: the TikTok URL validator anchors only at the start of the stripped
input.  It accepts a string exactly when the stripped form begins with one of
the four URL shapes — so a valid shape followed by arbitrary trailing
characters validates, and any string whose stripped form does not begin with
a shape is rejected.  `StartsWithTikTokShape` is the declarative shape
predicate the validator is compared against. -/
theorem validate_url_iff_shape (url : String) :
    validate_tiktok_url url = true ↔
      StartsWithTikTokShape (pyStrip url.toList) := by
  simp only [validate_tiktok_url, Bool.or_eq_true]
  constructor
  · intro h
    rcases h with ((h | h) | h) | h
    · obtain ⟨q, t, hq, he⟩ := matchVideoUrl_forward _ h
      exact ⟨q, t, Or.inl hq, he⟩
    · obtain ⟨q, t, hq, he⟩ := matchShortUrl_forward _ h
      exact ⟨q, t, Or.inr (Or.inl hq), he⟩
    · obtain ⟨q, t, hq, he⟩ := matchVmUrl_forward _ h
      exact ⟨q, t, Or.inr (Or.inr (Or.inl hq)), he⟩
    · obtain ⟨q, t, hq, he⟩ := matchProfileUrl_forward _ h
      exact ⟨q, t, Or.inr (Or.inr (Or.inr hq)), he⟩
  · rintro ⟨q, t, hq, he⟩
    rw [he]
    rcases hq with h | h | h | h
    · exact Or.inl (Or.inl (Or.inl (matchVideoUrl_backward q t h)))
    · exact Or.inl (Or.inl (Or.inr (matchShortUrl_backward q t h)))
    · exact Or.inl (Or.inr (matchVmUrl_backward q t h))
    · exact Or.inr (matchProfileUrl_backward q t h)

end TikTokScraper
